import Mathlib

/-!
# Scoring engine of the text-analysis extension (`src/content.js`, `analyzeText`)

Shallow embedding of `analyzeText` and of the helpers of its `textAnalysis`
object, followed by the properties established about them.

Modelling conventions.

* A text is the list of its Unicode code points.  Every regular expression that
  reads the text carries the `u` flag, so matching proceeds code point by code
  point; the one pattern without it (`getNumericalContent`) only reads ASCII
  digits and the full stop.
* A JavaScript number is an exact rational, extended with `NaN` and the two
  infinities where a division can produce them (`JSNum`).  Counts are natural
  numbers.  The rounding error of binary floating point is not modelled: the
  weights `0.30`, `0.05`, ... are the decimal fractions they denote.  The
  values computed below at concrete texts (`10`, `4.5`) are exact doubles.
* A keyword pattern `/\b(k1|k2|...)\b/iu` is given by the list of its
  alternatives; `execFrom` is its leftmost match and `matchLength` the length
  of the array that `text.match` returns for it.
* The general-category tables behind `\p{L}` and `\p{N}` belong to the
  JavaScript engine, not to the repository; they are written out below
  (Unicode 14.0, surrogates left out).
-/

namespace BullshitDetector

/-- A text, as the sequence of its code points. -/
abbrev Text := List Char

/-! ## Character classes -/

/-- Membership of `n` in a sorted table of inclusive code-point ranges. -/
def inRanges : List (Nat × Nat) → Nat → Bool
  | [], _ => false
  | (lo, hi) :: rest, n =>
    if n < lo then false else if n ≤ hi then true else inRanges rest n

def letterRanges : List (Nat × Nat) :=
  [(65, 90), (97, 122), (170, 170), (181, 181), (186, 186), (192, 214), (216, 246), (248, 705),
   (710, 721), (736, 740), (748, 748), (750, 750), (880, 884), (886, 887), (890, 893),
   (895, 895), (902, 902), (904, 906), (908, 908), (910, 929), (931, 1013), (1015, 1153),
   (1162, 1327), (1329, 1366), (1369, 1369), (1376, 1416), (1488, 1514), (1519, 1522),
   (1568, 1610), (1646, 1647), (1649, 1747), (1749, 1749), (1765, 1766), (1774, 1775),
   (1786, 1788), (1791, 1791), (1808, 1808), (1810, 1839), (1869, 1957), (1969, 1969),
   (1994, 2026), (2036, 2037), (2042, 2042), (2048, 2069), (2074, 2074), (2084, 2084),
   (2088, 2088), (2112, 2136), (2144, 2154), (2160, 2183), (2185, 2190), (2208, 2249),
   (2308, 2361), (2365, 2365), (2384, 2384), (2392, 2401), (2417, 2432), (2437, 2444),
   (2447, 2448), (2451, 2472), (2474, 2480), (2482, 2482), (2486, 2489), (2493, 2493),
   (2510, 2510), (2524, 2525), (2527, 2529), (2544, 2545), (2556, 2556), (2565, 2570),
   (2575, 2576), (2579, 2600), (2602, 2608), (2610, 2611), (2613, 2614), (2616, 2617),
   (2649, 2652), (2654, 2654), (2674, 2676), (2693, 2701), (2703, 2705), (2707, 2728),
   (2730, 2736), (2738, 2739), (2741, 2745), (2749, 2749), (2768, 2768), (2784, 2785),
   (2809, 2809), (2821, 2828), (2831, 2832), (2835, 2856), (2858, 2864), (2866, 2867),
   (2869, 2873), (2877, 2877), (2908, 2909), (2911, 2913), (2929, 2929), (2947, 2947),
   (2949, 2954), (2958, 2960), (2962, 2965), (2969, 2970), (2972, 2972), (2974, 2975),
   (2979, 2980), (2984, 2986), (2990, 3001), (3024, 3024), (3077, 3084), (3086, 3088),
   (3090, 3112), (3114, 3129), (3133, 3133), (3160, 3162), (3165, 3165), (3168, 3169),
   (3200, 3200), (3205, 3212), (3214, 3216), (3218, 3240), (3242, 3251), (3253, 3257),
   (3261, 3261), (3293, 3294), (3296, 3297), (3313, 3314), (3332, 3340), (3342, 3344),
   (3346, 3386), (3389, 3389), (3406, 3406), (3412, 3414), (3423, 3425), (3450, 3455),
   (3461, 3478), (3482, 3505), (3507, 3515), (3517, 3517), (3520, 3526), (3585, 3632),
   (3634, 3635), (3648, 3654), (3713, 3714), (3716, 3716), (3718, 3722), (3724, 3747),
   (3749, 3749), (3751, 3760), (3762, 3763), (3773, 3773), (3776, 3780), (3782, 3782),
   (3804, 3807), (3840, 3840), (3904, 3911), (3913, 3948), (3976, 3980), (4096, 4138),
   (4159, 4159), (4176, 4181), (4186, 4189), (4193, 4193), (4197, 4198), (4206, 4208),
   (4213, 4225), (4238, 4238), (4256, 4293), (4295, 4295), (4301, 4301), (4304, 4346),
   (4348, 4680), (4682, 4685), (4688, 4694), (4696, 4696), (4698, 4701), (4704, 4744),
   (4746, 4749), (4752, 4784), (4786, 4789), (4792, 4798), (4800, 4800), (4802, 4805),
   (4808, 4822), (4824, 4880), (4882, 4885), (4888, 4954), (4992, 5007), (5024, 5109),
   (5112, 5117), (5121, 5740), (5743, 5759), (5761, 5786), (5792, 5866), (5873, 5880),
   (5888, 5905), (5919, 5937), (5952, 5969), (5984, 5996), (5998, 6000), (6016, 6067),
   (6103, 6103), (6108, 6108), (6176, 6264), (6272, 6276), (6279, 6312), (6314, 6314),
   (6320, 6389), (6400, 6430), (6480, 6509), (6512, 6516), (6528, 6571), (6576, 6601),
   (6656, 6678), (6688, 6740), (6823, 6823), (6917, 6963), (6981, 6988), (7043, 7072),
   (7086, 7087), (7098, 7141), (7168, 7203), (7245, 7247), (7258, 7293), (7296, 7304),
   (7312, 7354), (7357, 7359), (7401, 7404), (7406, 7411), (7413, 7414), (7418, 7418),
   (7424, 7615), (7680, 7957), (7960, 7965), (7968, 8005), (8008, 8013), (8016, 8023),
   (8025, 8025), (8027, 8027), (8029, 8029), (8031, 8061), (8064, 8116), (8118, 8124),
   (8126, 8126), (8130, 8132), (8134, 8140), (8144, 8147), (8150, 8155), (8160, 8172),
   (8178, 8180), (8182, 8188), (8305, 8305), (8319, 8319), (8336, 8348), (8450, 8450),
   (8455, 8455), (8458, 8467), (8469, 8469), (8473, 8477), (8484, 8484), (8486, 8486),
   (8488, 8488), (8490, 8493), (8495, 8505), (8508, 8511), (8517, 8521), (8526, 8526),
   (8579, 8580), (11264, 11492), (11499, 11502), (11506, 11507), (11520, 11557), (11559, 11559),
   (11565, 11565), (11568, 11623), (11631, 11631), (11648, 11670), (11680, 11686),
   (11688, 11694), (11696, 11702), (11704, 11710), (11712, 11718), (11720, 11726),
   (11728, 11734), (11736, 11742), (11823, 11823), (12293, 12294), (12337, 12341),
   (12347, 12348), (12353, 12438), (12445, 12447), (12449, 12538), (12540, 12543),
   (12549, 12591), (12593, 12686), (12704, 12735), (12784, 12799), (13312, 19903),
   (19968, 42124), (42192, 42237), (42240, 42508), (42512, 42527), (42538, 42539),
   (42560, 42606), (42623, 42653), (42656, 42725), (42775, 42783), (42786, 42888),
   (42891, 42954), (42960, 42961), (42963, 42963), (42965, 42969), (42994, 43009),
   (43011, 43013), (43015, 43018), (43020, 43042), (43072, 43123), (43138, 43187),
   (43250, 43255), (43259, 43259), (43261, 43262), (43274, 43301), (43312, 43334),
   (43360, 43388), (43396, 43442), (43471, 43471), (43488, 43492), (43494, 43503),
   (43514, 43518), (43520, 43560), (43584, 43586), (43588, 43595), (43616, 43638),
   (43642, 43642), (43646, 43695), (43697, 43697), (43701, 43702), (43705, 43709),
   (43712, 43712), (43714, 43714), (43739, 43741), (43744, 43754), (43762, 43764),
   (43777, 43782), (43785, 43790), (43793, 43798), (43808, 43814), (43816, 43822),
   (43824, 43866), (43868, 43881), (43888, 44002), (44032, 55203), (55216, 55238),
   (55243, 55291), (63744, 64109), (64112, 64217), (64256, 64262), (64275, 64279),
   (64285, 64285), (64287, 64296), (64298, 64310), (64312, 64316), (64318, 64318),
   (64320, 64321), (64323, 64324), (64326, 64433), (64467, 64829), (64848, 64911),
   (64914, 64967), (65008, 65019), (65136, 65140), (65142, 65276), (65313, 65338),
   (65345, 65370), (65382, 65470), (65474, 65479), (65482, 65487), (65490, 65495),
   (65498, 65500), (65536, 65547), (65549, 65574), (65576, 65594), (65596, 65597),
   (65599, 65613), (65616, 65629), (65664, 65786), (66176, 66204), (66208, 66256),
   (66304, 66335), (66349, 66368), (66370, 66377), (66384, 66421), (66432, 66461),
   (66464, 66499), (66504, 66511), (66560, 66717), (66736, 66771), (66776, 66811),
   (66816, 66855), (66864, 66915), (66928, 66938), (66940, 66954), (66956, 66962),
   (66964, 66965), (66967, 66977), (66979, 66993), (66995, 67001), (67003, 67004),
   (67072, 67382), (67392, 67413), (67424, 67431), (67456, 67461), (67463, 67504),
   (67506, 67514), (67584, 67589), (67592, 67592), (67594, 67637), (67639, 67640),
   (67644, 67644), (67647, 67669), (67680, 67702), (67712, 67742), (67808, 67826),
   (67828, 67829), (67840, 67861), (67872, 67897), (67968, 68023), (68030, 68031),
   (68096, 68096), (68112, 68115), (68117, 68119), (68121, 68149), (68192, 68220),
   (68224, 68252), (68288, 68295), (68297, 68324), (68352, 68405), (68416, 68437),
   (68448, 68466), (68480, 68497), (68608, 68680), (68736, 68786), (68800, 68850),
   (68864, 68899), (69248, 69289), (69296, 69297), (69376, 69404), (69415, 69415),
   (69424, 69445), (69488, 69505), (69552, 69572), (69600, 69622), (69635, 69687),
   (69745, 69746), (69749, 69749), (69763, 69807), (69840, 69864), (69891, 69926),
   (69956, 69956), (69959, 69959), (69968, 70002), (70006, 70006), (70019, 70066),
   (70081, 70084), (70106, 70106), (70108, 70108), (70144, 70161), (70163, 70187),
   (70272, 70278), (70280, 70280), (70282, 70285), (70287, 70301), (70303, 70312),
   (70320, 70366), (70405, 70412), (70415, 70416), (70419, 70440), (70442, 70448),
   (70450, 70451), (70453, 70457), (70461, 70461), (70480, 70480), (70493, 70497),
   (70656, 70708), (70727, 70730), (70751, 70753), (70784, 70831), (70852, 70853),
   (70855, 70855), (71040, 71086), (71128, 71131), (71168, 71215), (71236, 71236),
   (71296, 71338), (71352, 71352), (71424, 71450), (71488, 71494), (71680, 71723),
   (71840, 71903), (71935, 71942), (71945, 71945), (71948, 71955), (71957, 71958),
   (71960, 71983), (71999, 71999), (72001, 72001), (72096, 72103), (72106, 72144),
   (72161, 72161), (72163, 72163), (72192, 72192), (72203, 72242), (72250, 72250),
   (72272, 72272), (72284, 72329), (72349, 72349), (72368, 72440), (72704, 72712),
   (72714, 72750), (72768, 72768), (72818, 72847), (72960, 72966), (72968, 72969),
   (72971, 73008), (73030, 73030), (73056, 73061), (73063, 73064), (73066, 73097),
   (73112, 73112), (73440, 73458), (73648, 73648), (73728, 74649), (74880, 75075),
   (77712, 77808), (77824, 78894), (82944, 83526), (92160, 92728), (92736, 92766),
   (92784, 92862), (92880, 92909), (92928, 92975), (92992, 92995), (93027, 93047),
   (93053, 93071), (93760, 93823), (93952, 94026), (94032, 94032), (94099, 94111),
   (94176, 94177), (94179, 94179), (94208, 100343), (100352, 101589), (101632, 101640),
   (110576, 110579), (110581, 110587), (110589, 110590), (110592, 110882), (110928, 110930),
   (110948, 110951), (110960, 111355), (113664, 113770), (113776, 113788), (113792, 113800),
   (113808, 113817), (119808, 119892), (119894, 119964), (119966, 119967), (119970, 119970),
   (119973, 119974), (119977, 119980), (119982, 119993), (119995, 119995), (119997, 120003),
   (120005, 120069), (120071, 120074), (120077, 120084), (120086, 120092), (120094, 120121),
   (120123, 120126), (120128, 120132), (120134, 120134), (120138, 120144), (120146, 120485),
   (120488, 120512), (120514, 120538), (120540, 120570), (120572, 120596), (120598, 120628),
   (120630, 120654), (120656, 120686), (120688, 120712), (120714, 120744), (120746, 120770),
   (120772, 120779), (122624, 122654), (123136, 123180), (123191, 123197), (123214, 123214),
   (123536, 123565), (123584, 123627), (124896, 124902), (124904, 124907), (124909, 124910),
   (124912, 124926), (124928, 125124), (125184, 125251), (125259, 125259), (126464, 126467),
   (126469, 126495), (126497, 126498), (126500, 126500), (126503, 126503), (126505, 126514),
   (126516, 126519), (126521, 126521), (126523, 126523), (126530, 126530), (126535, 126535),
   (126537, 126537), (126539, 126539), (126541, 126543), (126545, 126546), (126548, 126548),
   (126551, 126551), (126553, 126553), (126555, 126555), (126557, 126557), (126559, 126559),
   (126561, 126562), (126564, 126564), (126567, 126570), (126572, 126578), (126580, 126583),
   (126585, 126588), (126590, 126590), (126592, 126601), (126603, 126619), (126625, 126627),
   (126629, 126633), (126635, 126651), (131072, 173791), (173824, 177976), (177984, 178205),
   (178208, 183969), (183984, 191456), (194560, 195101), (196608, 201546)]

def numberRanges : List (Nat × Nat) :=
  [(48, 57), (178, 179), (185, 185), (188, 190), (1632, 1641), (1776, 1785), (1984, 1993),
   (2406, 2415), (2534, 2543), (2548, 2553), (2662, 2671), (2790, 2799), (2918, 2927),
   (2930, 2935), (3046, 3058), (3174, 3183), (3192, 3198), (3302, 3311), (3416, 3422),
   (3430, 3448), (3558, 3567), (3664, 3673), (3792, 3801), (3872, 3891), (4160, 4169),
   (4240, 4249), (4969, 4988), (5870, 5872), (6112, 6121), (6128, 6137), (6160, 6169),
   (6470, 6479), (6608, 6618), (6784, 6793), (6800, 6809), (6992, 7001), (7088, 7097),
   (7232, 7241), (7248, 7257), (8304, 8304), (8308, 8313), (8320, 8329), (8528, 8578),
   (8581, 8585), (9312, 9371), (9450, 9471), (10102, 10131), (11517, 11517), (12295, 12295),
   (12321, 12329), (12344, 12346), (12690, 12693), (12832, 12841), (12872, 12879),
   (12881, 12895), (12928, 12937), (12977, 12991), (42528, 42537), (42726, 42735),
   (43056, 43061), (43216, 43225), (43264, 43273), (43472, 43481), (43504, 43513),
   (43600, 43609), (44016, 44025), (65296, 65305), (65799, 65843), (65856, 65912),
   (65930, 65931), (66273, 66299), (66336, 66339), (66369, 66369), (66378, 66378),
   (66513, 66517), (66720, 66729), (67672, 67679), (67705, 67711), (67751, 67759),
   (67835, 67839), (67862, 67867), (68028, 68029), (68032, 68047), (68050, 68095),
   (68160, 68168), (68221, 68222), (68253, 68255), (68331, 68335), (68440, 68447),
   (68472, 68479), (68521, 68527), (68858, 68863), (68912, 68921), (69216, 69246),
   (69405, 69414), (69457, 69460), (69573, 69579), (69714, 69743), (69872, 69881),
   (69942, 69951), (70096, 70105), (70113, 70132), (70384, 70393), (70736, 70745),
   (70864, 70873), (71248, 71257), (71360, 71369), (71472, 71483), (71904, 71922),
   (72016, 72025), (72784, 72812), (73040, 73049), (73120, 73129), (73664, 73684),
   (74752, 74862), (92768, 92777), (92864, 92873), (93008, 93017), (93019, 93025),
   (93824, 93846), (119520, 119539), (119648, 119672), (120782, 120831), (123200, 123209),
   (123632, 123641), (125127, 125135), (125264, 125273), (126065, 126123), (126125, 126127),
   (126129, 126132), (126209, 126253), (126255, 126269), (127232, 127244), (130032, 130041)]

/-- The class `\p{L}`. -/
def isLetter (c : Char) : Bool := inRanges letterRanges c.toNat

/-- The class `\p{N}`. -/
def isNumber (c : Char) : Bool := inRanges numberRanges c.toNat

/-- The class `[\p{L}\p{N}]` of the word pattern. -/
def isWordChar (c : Char) : Bool := isLetter c || isNumber c

/-- The class `\d` (ASCII digits; the patterns using it have no `v` flag). -/
def isDigit (c : Char) : Bool := decide (48 ≤ c.toNat) && decide (c.toNat ≤ 57)

/-- The class `\s`: ECMAScript white space and line terminators. -/
def isSpace (c : Char) : Bool :=
  [0x09, 0x0A, 0x0B, 0x0C, 0x0D, 0x20, 0xA0, 0x1680, 0x2028, 0x2029, 0x202F, 0x205F,
    0x3000, 0xFEFF].contains c.toNat
  || (decide (0x2000 ≤ c.toNat) && decide (c.toNat ≤ 0x200A))

/-- The class `[!?。．？！\n]` of `getSentenceComplexity`, as it stands in the source:
`!`, `?`, U+3002, U+FF0E, U+FF1F, U+FF01 and line feed. -/
def isTerminator (c : Char) : Bool :=
  [0x21, 0x3F, 0x3002, 0xFF0E, 0xFF1F, 0xFF01, 0x0A].contains c.toNat

/-- The class `[,;:，；：]` (comma, semicolon, colon, and their full-width forms). -/
def isClausePunct (c : Char) : Bool :=
  [0x2C, 0x3B, 0x3A, 0xFF0C, 0xFF1B, 0xFF1A].contains c.toNat

/-- The class `[\(\[\{]`. -/
def isOpen (c : Char) : Bool := [0x28, 0x5B, 0x7B].contains c.toNat

/-- The class `[\)\]\}]`. -/
def isClose (c : Char) : Bool := [0x29, 0x5D, 0x7D].contains c.toNat

/-- The class of `getCitationLevel.quotes`: `"`, `'`, `«`, `»`, `『`, `』`, `「`, `」`. -/
def isQuote (c : Char) : Bool :=
  [0x22, 0x27, 0xAB, 0xBB, 0x300E, 0x300F, 0x300C, 0x300D].contains c.toNat

/-- Word characters as `\b` sees them under the flags `iu`: `[A-Za-z0-9_]` and the two
code points whose simple case folding is an ASCII letter, U+017F and U+212A. -/
def isBoundaryWordChar (c : Char) : Bool :=
  (decide (0x41 ≤ c.toNat) && decide (c.toNat ≤ 0x5A))
  || (decide (0x61 ≤ c.toNat) && decide (c.toNat ≤ 0x7A))
  || (decide (0x30 ≤ c.toNat) && decide (c.toNat ≤ 0x39))
  || c.toNat == 0x5F || c.toNat == 0x17F || c.toNat == 0x212A

/-! ## Global matching (`String.prototype.match` with the `g` flag) -/

/-- The scan of a global match.  `m` tells, for the rest of the text at the current
index, the length of the match starting there (`none`: no match at this index).
`skip` is the number of code points of the last match still to pass.  After a match the
scan resumes at its end; after a failure, or an empty match, one code point further. -/
def matchAllAux (m : Text → Option Nat) : Nat → Text → List Text
  | _, [] => match m [] with
    | some _ => [[]]
    | none => []
  | skip + 1, _ :: cs => matchAllAux m skip cs
  | 0, c :: cs =>
    match m (c :: cs) with
    | some (k + 1) => (c :: cs).take (k + 1) :: matchAllAux m k cs
    | some 0 => [] :: matchAllAux m 0 cs
    | none => matchAllAux m 0 cs

/-- All matches of a pattern in a text, `text.match(/.../g) || []`. -/
def matchAll (m : Text → Option Nat) (text : Text) : List Text := matchAllAux m 0 text

/-- One or more code points of class `p`, greedy: `[p]+`. -/
def runOf (p : Char → Bool) (t : Text) : Option Nat :=
  match (t.takeWhile p).length with
  | 0 => none
  | n + 1 => some (n + 1)

/-- The word pattern `/[\p{L}\p{N}]+/gu` at one index. -/
def wordAt (t : Text) : Option Nat := runOf isWordChar t

/-- One code point of class `p`: `[p]`. -/
def charAt (p : Char → Bool) : Text → Option Nat
  | [] => none
  | c :: _ => if p c then some 1 else none

/-- The sentence pattern `/[^!?。．？！\n]+[!?。．？！\n]+/gu` at one index.  The first run
is greedy and stops at a terminator or at the end of the text; a shorter run would be
followed by a non-terminator, so backtracking finds nothing more. -/
def sentenceAt (t : Text) : Option Nat :=
  match runOf (fun c => !isTerminator c) t with
  | none => none
  | some n =>
    match runOf isTerminator (t.drop n) with
    | none => none
    | some k => some (n + k)

/-- The span pattern `/[\(\[\{][^\)\]\}]+[\)\]\}]/gu` at one index: an opening character,
the greedy run of non-closing characters (at least one), a closing character. -/
def bracketSpanAt : Text → Option Nat
  | [] => none
  | o :: r =>
    if isOpen o then
      match runOf (fun c => !isClose c) r with
      | none => none
      | some n =>
        match r.drop n with
        | c :: _ => if isClose c then some (n + 2) else none
        | [] => none
    else none

/-- The pattern `/[\(\[\{][\p{L}\s]+,?\s*\d{4}[\)\]\}]/gu` at one index.  A digit and a
comma are neither letters nor white space, so the four digits can only start after the
whole run of `[\p{L}\s]`: the greedy choices are the only ones that can succeed. -/
def academicAt : Text → Option Nat
  | [] => none
  | o :: r =>
    if isOpen o then
      match runOf (fun c => isLetter c || isSpace c) r with
      | none => none
      | some n =>
        let r1 := r.drop n
        let comma := match r1 with
          | c :: _ => if c = ',' then 1 else 0
          | [] => 0
        let r2 := r1.drop comma
        let sp := (r2.takeWhile isSpace).length
        match r2.drop sp with
        | d1 :: d2 :: d3 :: d4 :: c :: _ =>
          if isDigit d1 && isDigit d2 && isDigit d3 && isDigit d4 && isClose c then
            some (1 + n + comma + sp + 4 + 1)
          else none
        | _ => none
    else none

/-- The pattern `/\d+(?:\.\d+)?/g` at one index. -/
def numberAt (t : Text) : Option Nat :=
  match runOf isDigit t with
  | none => none
  | some n =>
    match t.drop n with
    | c :: r =>
      if c = '.' then
        match runOf isDigit r with
        | some k => some (n + 1 + k)
        | none => some n
      else some n
    | [] => some n

/-! ## Keyword patterns (`/\b(k1|k2|...)\b/iu`, no `g` flag) -/

/-- A text code point `c` matches the pattern character `p` (a lower-case ASCII letter or
a space) under the flags `iu`: both have the same simple case folding. -/
def foldsTo (p c : Char) : Bool :=
  c == p
  || (decide (0x61 ≤ p.toNat) && decide (p.toNat ≤ 0x7A) && c.toNat + 32 == p.toNat)
  || (p == 's' && c.toNat == 0x17F)
  || (p == 'k' && c.toNat == 0x212A)

/-- Match the characters of one alternative at the start of `t`; the rest of the text. -/
def stripKeyword : List Char → Text → Option Text
  | [], t => some t
  | _ :: _, [] => none
  | p :: ps, c :: cs => if foldsTo p c then stripKeyword ps cs else none

/-- The assertion `\b` between the code point before and the one after the position. -/
def isWordBoundary (prev next : Option Char) : Bool :=
  prev.any isBoundaryWordChar != next.any isBoundaryWordChar

/-- One alternative followed by the closing `\b`; the matched text. -/
def keywordAt (kw : List Char) (prev : Option Char) (t : Text) : Option Text :=
  match stripKeyword kw t with
  | some rest =>
    let m := t.take kw.length
    if isWordBoundary (m.getLast?.orElse fun _ => prev) rest.head? then some m else none
  | none => none

/-- The whole pattern at one index: `\b`, the first alternative that leads to a match,
`\b`.  The result is the match array: the matched text and the text of the one capture
group, which is the same text. -/
def execAt (kws : List (List Char)) (prev : Option Char) (t : Text) : Option (List Text) :=
  if isWordBoundary prev t.head? then
    (kws.findSome? fun kw => keywordAt kw prev t).map fun m => [m, m]
  else none

/-- The search of `RegExp.prototype.exec` from the index after `prev`: the match array of
the leftmost match, `none` for `null`. -/
def execFrom (kws : List (List Char)) : Option Char → Text → Option (List Text)
  | prev, [] => execAt kws prev []
  | prev, c :: cs =>
    match execAt kws prev (c :: cs) with
    | some r => some r
    | none => execFrom kws (some c) cs

/-- The expression `(text.match(pattern) || []).length` for a keyword pattern. -/
def matchLength (kws : List (List Char)) (text : Text) : Nat :=
  ((execFrom kws none text).getD []).length

/-! ## Numbers and grades -/

/-- A JavaScript number: an exact rational, `NaN`, or an infinity. -/
inductive JSNum where
  | nan
  | posInf
  | negInf
  | fin (q : ℚ)
deriving DecidableEq

/-- Division of two finite numbers (signed zeros do not occur: divisors are lengths). -/
def JSNum.div (a b : ℚ) : JSNum :=
  if b = 0 then
    if a = 0 then .nan else if 0 < a then .posInf else .negInf
  else .fin (a / b)

/-- Addition of a finite number and a number. -/
def JSNum.addFin (a : ℚ) : JSNum → JSNum
  | .fin q => .fin (a + q)
  | x => x

/-- The comparison `x > c` with a finite `c`; false for `NaN`. -/
def JSNum.gt (x : JSNum) (c : ℚ) : Bool :=
  match x with
  | .nan => false
  | .posInf => true
  | .negInf => false
  | .fin q => decide (c < q)

/-- The five letter grades. -/
inductive Grade where
  | A | B | C | D | E
deriving DecidableEq

/-- The table `gradeToPoints`. -/
def gradeToPoints : Grade → Nat
  | .A => 5
  | .B => 4
  | .C => 3
  | .D => 2
  | .E => 1

/-- The order `E < D < C < B < A` of the grades, read off their points. -/
instance : LE Grade := ⟨fun g h => gradeToPoints g ≤ gradeToPoints h⟩

instance (g h : Grade) : Decidable (g ≤ h) :=
  inferInstanceAs (Decidable (gradeToPoints g ≤ gradeToPoints h))

/-- The function `Math.round` on a finite number: halves go up. -/
def mathRound (x : ℚ) : ℤ := Rat.floor (x + 1 / 2)

/-! ## The helpers of `textAnalysis` -/

/-- The value of `getWordStats` (the `frequency` table is left out). -/
structure WordStats where
  total : Nat
  unique : Nat
  ratio : JSNum
deriving DecidableEq

/-- The function `getWordStats`. -/
def getWordStats (text : Text) : WordStats :=
  let words := matchAll wordAt text
  let uniqueWords := words.dedup
  { total := words.length
    unique := uniqueWords.length
    ratio := JSNum.div uniqueWords.length words.length }

/-- One record of `getSentenceComplexity`. -/
structure SentenceRecord where
  length : Nat
  punctuation : Nat
  parenthetical : Nat
  complexity : ℚ
deriving DecidableEq

/-- The function `getSentenceComplexity`. -/
def getSentenceComplexity (text : Text) : List SentenceRecord :=
  (matchAll sentenceAt text).map fun sentence =>
    let words := matchAll wordAt sentence
    let punctuation := (matchAll (charAt isClausePunct) sentence).length
    let parenthetical := (matchAll bracketSpanAt sentence).length
    { length := words.length
      punctuation := punctuation
      parenthetical := parenthetical
      complexity := words.length * (1 + (punctuation : ℚ) / 5 + (parenthetical : ℚ) / 2) }


/-- The part of `getNumericalContent` the scores read (`percentages` and `dates` are
computed by the source and read by nothing). -/
structure NumericalContent where
  numbers : Nat
deriving DecidableEq

/-- The function `getNumericalContent`. -/
def getNumericalContent (text : Text) : NumericalContent :=
  { numbers := (matchAll numberAt text).length }

/-- The value of `getCitationLevel`. -/
structure CitationLevel where
  academic : Nat
  quotes : ℚ
  references : Nat
deriving DecidableEq

/-- The function `getCitationLevel`. -/
def getCitationLevel (text : Text) : CitationLevel :=
  { academic := (matchAll academicAt text).length
    quotes := ((matchAll (charAt isQuote) text).length : ℚ) / 2
    references := (matchAll bracketSpanAt text).length }

/-- The alternatives of a keyword pattern. -/
def keywords (ws : List String) : List (List Char) := ws.map String.toList

/-- The pattern `directLife` of `getImpactLevel`. -/
def directLife : List (List Char) :=
  keywords ["health", "safety", "rights", "education", "life", "death", "emergency", "crisis"]

/-- The pattern `systemic` of `getImpactLevel`. -/
def systemic : List (List Char) :=
  keywords ["system", "policy", "law", "regulation", "government", "reform", "change"]

/-- The pattern `indirect` of `getImpactLevel`. -/
def indirect : List (List Char) :=
  keywords ["community", "social", "culture", "influence", "affect"]

/-- The pattern `local` of `getImpactLevel`. -/
def localArea : List (List Char) :=
  keywords ["local", "city", "town", "district", "neighborhood"]

/-- The composite score of `getImpactLevel`. -/
def impactScore (text : Text) : ℚ :=
  (matchLength directLife text : ℚ) * 3 + (matchLength systemic text : ℚ) * 2
    + (matchLength indirect text : ℚ) * 1.5 + (matchLength localArea text : ℚ)

/-- The function `getImpactLevel`. -/
def getImpactLevel (text : Text) : Grade :=
  let score := impactScore text
  if 10 < score then .A
  else if 7 < score then .B
  else if 5 < score then .C
  else if 3 < score then .D
  else .E

/-- The pattern `longTerm` of `getTemporalRelevance`. -/
def longTerm : List (List Char) :=
  keywords ["future", "permanent", "lasting", "years", "decade", "generation"]

/-- The pattern `mediumTerm` of `getTemporalRelevance`. -/
def mediumTerm : List (List Char) :=
  keywords ["month", "quarterly", "annual", "upcoming", "plan"]

/-- The pattern `current` of `getTemporalRelevance`. -/
def current : List (List Char) :=
  keywords ["current", "ongoing", "present", "now", "today"]

/-- The pattern `shortTerm` of `getTemporalRelevance`. -/
def shortTerm : List (List Char) :=
  keywords ["week", "day", "temporary", "immediate"]

/-- The composite score of `getTemporalRelevance`. -/
def temporalScore (text : Text) : ℚ :=
  (matchLength longTerm text : ℚ) * 3 + (matchLength mediumTerm text : ℚ) * 2
    + (matchLength current text : ℚ) * 1.5 + (matchLength shortTerm text : ℚ)

/-- The function `getTemporalRelevance`. -/
def getTemporalRelevance (text : Text) : Grade :=
  let score := temporalScore text
  if 8 < score then .A
  else if 6 < score then .B
  else if 4 < score then .C
  else if 2 < score then .D
  else .E

/-- The question pattern of `getDialecticalQuality`. -/
def questionWords : List (List Char) :=
  keywords ["why", "how", "what if", "analyze", "examine"]

/-- The value of `getDialecticalQuality`. -/
structure DialecticalQuality where
  questionScore : JSNum
  argumentScore : Nat
deriving DecidableEq

/-- The average of `getDialecticalQuality`: the sum of the complexities over the number
of sentences, with no guard on that number. -/
def avgComplexity (complexity : List SentenceRecord) : JSNum :=
  JSNum.div (complexity.foldl (fun sum s => sum + s.complexity) 0) complexity.length

/-- The function `getDialecticalQuality`. -/
def getDialecticalQuality (text : Text) : DialecticalQuality :=
  let questions := matchLength questionWords text
  let complexity := getSentenceComplexity text
  { questionScore := JSNum.addFin ((questions : ℚ) * 2) (avgComplexity complexity)
    argumentScore := (complexity.filter fun s => decide (15 < s.complexity)).length }

/-- The pattern `multipleViews` of `getSocialReasoning`. -/
def multipleViews : List (List Char) :=
  keywords ["however", "but", "although", "contrary", "oppose", "support", "agree"]

/-- The pattern `groupPerspectives` of `getSocialReasoning`. -/
def groupPerspectives : List (List Char) :=
  keywords ["group", "community", "society", "people", "public", "population"]

/-- The pattern `powerRelations` of `getSocialReasoning`. -/
def powerRelations : List (List Char) :=
  keywords ["authority", "power", "control", "influence", "leadership", "position"]

/-- The value of `getSocialReasoning`. -/
structure SocialReasoning where
  networkScore : Nat
  dialogueScore : Nat
deriving DecidableEq

/-- The function `getSocialReasoning`. -/
def getSocialReasoning (text : Text) : SocialReasoning :=
  { networkScore := matchLength multipleViews text * 2 + matchLength groupPerspectives text
      + matchLength powerRelations text
    dialogueScore := ((getSentenceComplexity text).filter fun s => decide (0 < s.parenthetical)).length }

/-- The pattern `economic` of `getMaterialAnalysis`. -/
def economic : List (List Char) :=
  keywords ["economic", "financial", "cost", "budget", "money", "fund", "resource"]

/-- The pattern `material` of `getMaterialAnalysis`. -/
def material : List (List Char) :=
  keywords ["material", "physical", "concrete", "tangible", "infrastructure"]

/-- The pattern `practical` of `getMaterialAnalysis`. -/
def practical : List (List Char) :=
  keywords ["implement", "practice", "apply", "use", "effect", "impact", "result"]

/-- The value of `getMaterialAnalysis`. -/
structure MaterialAnalysis where
  resourceScore : Nat
  practicalScore : Nat
deriving DecidableEq

/-- The function `getMaterialAnalysis`. -/
def getMaterialAnalysis (text : Text) : MaterialAnalysis :=
  { resourceScore := matchLength economic text * 2 + matchLength material text
    practicalScore := matchLength practical text + (getNumericalContent text).numbers }

/-- The value of `getSymbolicSynthesis`. -/
structure SymbolicSynthesis where
  authorityScore : ℚ
  legitimacyScore : Nat
deriving DecidableEq

/-- The function `getSymbolicSynthesis`. -/
def getSymbolicSynthesis (text : Text) : SymbolicSynthesis :=
  let citations := getCitationLevel text
  let complexity := getSentenceComplexity text
  { authorityScore := (citations.academic : ℚ) * 3 + (citations.references : ℚ) * 2 + citations.quotes
    legitimacyScore := (complexity.filter fun s => decide (20 < s.complexity)).length }

/-! ## The rubric `criteria` -/

/-- A sub-criterion of the rubric: its weight and its `analyze` function. -/
structure SubCriterion where
  weight : ℚ
  analyze : Text → Grade

/-- The analysis of `questionQuality`. -/
def questionQuality (text : Text) : Grade :=
  let quality := getDialecticalQuality text
  if quality.questionScore.gt 12 then .A
  else if quality.questionScore.gt 8 then .B
  else if quality.questionScore.gt 5 then .C
  else if quality.questionScore.gt 3 then .D
  else .E

/-- The analysis of `argumentStructure`. -/
def argumentStructure (text : Text) : Grade :=
  let quality := getDialecticalQuality text
  if 5 < quality.argumentScore then .A
  else if 3 < quality.argumentScore then .B
  else if 2 < quality.argumentScore then .C
  else if 1 < quality.argumentScore then .D
  else .E

/-- The analysis of `networkAnalysis`. -/
def networkAnalysis (text : Text) : Grade :=
  let reasoning := getSocialReasoning text
  if 15 < reasoning.networkScore then .A
  else if 10 < reasoning.networkScore then .B
  else if 7 < reasoning.networkScore then .C
  else if 4 < reasoning.networkScore then .D
  else .E

/-- The analysis of `dialogueQuality`. -/
def dialogueQuality (text : Text) : Grade :=
  let reasoning := getSocialReasoning text
  if 8 < reasoning.dialogueScore then .A
  else if 6 < reasoning.dialogueScore then .B
  else if 4 < reasoning.dialogueScore then .C
  else if 2 < reasoning.dialogueScore then .D
  else .E

/-- The analysis of `resourceRecognition`. -/
def resourceRecognition (text : Text) : Grade :=
  let material := getMaterialAnalysis text
  if 10 < material.resourceScore then .A
  else if 7 < material.resourceScore then .B
  else if 5 < material.resourceScore then .C
  else if 3 < material.resourceScore then .D
  else .E

/-- The analysis of `practicalImplications`. -/
def practicalImplications (text : Text) : Grade :=
  let material := getMaterialAnalysis text
  if 12 < material.practicalScore then .A
  else if 8 < material.practicalScore then .B
  else if 5 < material.practicalScore then .C
  else if 3 < material.practicalScore then .D
  else .E

/-- The analysis of `authorityHandling`. -/
def authorityHandling (text : Text) : Grade :=
  let synthesis := getSymbolicSynthesis text
  if 15 < synthesis.authorityScore then .A
  else if 10 < synthesis.authorityScore then .B
  else if 7 < synthesis.authorityScore then .C
  else if 4 < synthesis.authorityScore then .D
  else .E

/-- The analysis of `conclusionLegitimacy`. -/
def conclusionLegitimacy (text : Text) : Grade :=
  let synthesis := getSymbolicSynthesis text
  if 5 < synthesis.legitimacyScore then .A
  else if 3 < synthesis.legitimacyScore then .B
  else if 2 < synthesis.legitimacyScore then .C
  else if 1 < synthesis.legitimacyScore then .D
  else .E

/-- A category of the rubric: its weight and its sub-criteria, in the order written. -/
structure Category where
  weight : ℚ
  subCriteria : List (String × SubCriterion)

/-- A value met by `Object.entries(category)`: the number under `weight`, or a
sub-criterion object. -/
inductive Member where
  | number (w : ℚ)
  | object (s : SubCriterion)

/-- The list `Object.entries(category)`: the `weight` entry, then the sub-criteria. -/
def Category.entries (c : Category) : List (String × Member) :=
  ("weight", Member.number c.weight) :: c.subCriteria.map fun p => (p.1, Member.object p.2)

/-- The object `criteria`. -/
def criteria : List (String × Category) :=
  [ ("informationImpact",
      { weight := 0.30
        subCriteria :=
          [ ("socialSignificance", { weight := 0.20, analyze := getImpactLevel }),
            ("temporalRelevance", { weight := 0.10, analyze := getTemporalRelevance }) ] }),
    ("dialecticalCapital",
      { weight := 0.10
        subCriteria :=
          [ ("questionQuality", { weight := 0.05, analyze := questionQuality }),
            ("argumentStructure", { weight := 0.05, analyze := argumentStructure }) ] }),
    ("socialReasoning",
      { weight := 0.20
        subCriteria :=
          [ ("networkAnalysis", { weight := 0.12, analyze := networkAnalysis }),
            ("dialogueQuality", { weight := 0.08, analyze := dialogueQuality }) ] }),
    ("materialAnalysis",
      { weight := 0.15
        subCriteria :=
          [ ("resourceRecognition", { weight := 0.08, analyze := resourceRecognition }),
            ("practicalImplications", { weight := 0.07, analyze := practicalImplications }) ] }),
    ("symbolicSynthesis",
      { weight := 0.25
        subCriteria :=
          [ ("authorityHandling", { weight := 0.15, analyze := authorityHandling }),
            ("conclusionLegitimacy", { weight := 0.10, analyze := conclusionLegitimacy }) ] }) ]

/-! ## The aggregation of `analyzeText` -/

/-- One entry of `subScores`. -/
structure SubScore where
  grade : Grade
  points : Nat
  weightedScore : ℚ
deriving DecidableEq

/-- One entry of `scores`. -/
structure CategoryScore where
  subScores : List (String × SubScore)
  total : ℚ
deriving DecidableEq

/-- The body of the inner loop: an entry with an `analyze` function is graded and added;
the `weight` entry, a number, has no `analyze` and is passed over. -/
def scoreMember (text : Text) (acc : CategoryScore) (e : String × Member) : CategoryScore :=
  match e.2 with
  | Member.object subCategory =>
    let grade := subCategory.analyze text
    let points := gradeToPoints grade
    { subScores := acc.subScores ++
        [(e.1, { grade := grade, points := points,
                 weightedScore := (points : ℚ) * subCategory.weight })]
      total := acc.total + (points : ℚ) * subCategory.weight }
  | Member.number _ => acc

/-- The inner loop over `Object.entries(category)`. -/
def scoreCategory (text : Text) (category : Category) : CategoryScore :=
  category.entries.foldl (scoreMember text) { subScores := [], total := 0 }

/-- The body of the outer loop: the pair of `scores` and the running `finalScore`. -/
def scoreStep (text : Text) (acc : List (String × CategoryScore) × ℚ)
    (e : String × Category) : List (String × CategoryScore) × ℚ :=
  let s := scoreCategory text e.2
  (acc.1 ++ [(e.1, s)], acc.2 + s.total * e.2.weight)

/-- The outer loop over `Object.entries(criteria)`. -/
def scoreAll (text : Text) : List (String × CategoryScore) × ℚ :=
  criteria.foldl (scoreStep text) ([], 0)

/-- The cascade that assigns `finalGrade` to the score on the 100-point scale. -/
def finalGradeOf (finalScore : ℚ) : Grade :=
  if 85 ≤ finalScore then .A
  else if 75 ≤ finalScore then .B
  else if 65 ≤ finalScore then .C
  else if 50 ≤ finalScore then .D
  else .E

/-- The field `textStats` of the result. -/
structure TextStats where
  wordStats : WordStats
  sentenceComplexity : List SentenceRecord
  citations : CitationLevel
  impact : Grade
  temporal : Grade
  dialectical : DialecticalQuality
  social : SocialReasoning
  material : MaterialAnalysis
  symbolic : SymbolicSynthesis
deriving DecidableEq

/-- The value of `analyzeText`. -/
structure Result where
  categoryScores : List (String × CategoryScore)
  finalScore : ℤ
  finalGrade : Grade
  textStats : TextStats
deriving DecidableEq

/-- The score on the 100-point scale before rounding (`finalScore = finalScore * 20`). -/
def rawScore (text : Text) : ℚ := (scoreAll text).2 * 20

/-- The function `analyzeText`. -/
def analyzeText (text : Text) : Result :=
  { categoryScores := (scoreAll text).1
    finalScore := mathRound (rawScore text)
    finalGrade := finalGradeOf (rawScore text)
    textStats :=
      { wordStats := getWordStats text
        sentenceComplexity := getSentenceComplexity text
        citations := getCitationLevel text
        impact := getImpactLevel text
        temporal := getTemporalRelevance text
        dialectical := getDialecticalQuality text
        social := getSocialReasoning text
        material := getMaterialAnalysis text
        symbolic := getSymbolicSynthesis text } }

/-! ## Sample texts and reference values -/

/-- The sample text of the impact scenario. -/
def impactSample : Text := "health and safety crisis policy reform".toList

/-- The sample text of the two-sentence scenario. -/
def simpleSample : Text := "This is a simple test. It has two sentences.".toList

/-- The `categoryScores` of a text whose ten sub-criteria are all graded E. -/
def lowestScores : List (String × CategoryScore) :=
  [ ("informationImpact",
      { subScores :=
          [ ("socialSignificance", { grade := Grade.E, points := 1, weightedScore := 0.20 }),
            ("temporalRelevance", { grade := Grade.E, points := 1, weightedScore := 0.10 }) ]
        total := 0.30 }),
    ("dialecticalCapital",
      { subScores :=
          [ ("questionQuality", { grade := Grade.E, points := 1, weightedScore := 0.05 }),
            ("argumentStructure", { grade := Grade.E, points := 1, weightedScore := 0.05 }) ]
        total := 0.10 }),
    ("socialReasoning",
      { subScores :=
          [ ("networkAnalysis", { grade := Grade.E, points := 1, weightedScore := 0.12 }),
            ("dialogueQuality", { grade := Grade.E, points := 1, weightedScore := 0.08 }) ]
        total := 0.20 }),
    ("materialAnalysis",
      { subScores :=
          [ ("resourceRecognition", { grade := Grade.E, points := 1, weightedScore := 0.08 }),
            ("practicalImplications", { grade := Grade.E, points := 1, weightedScore := 0.07 }) ]
        total := 0.15 }),
    ("symbolicSynthesis",
      { subScores :=
          [ ("authorityHandling", { grade := Grade.E, points := 1, weightedScore := 0.15 }),
            ("conclusionLegitimacy", { grade := Grade.E, points := 1, weightedScore := 0.10 }) ]
        total := 0.25 }) ]

/-- The ten analyses of a text are all graded E. -/
def AllLowest (text : Text) : Prop :=
  getImpactLevel text = Grade.E ∧ getTemporalRelevance text = Grade.E ∧
  questionQuality text = Grade.E ∧ argumentStructure text = Grade.E ∧
  networkAnalysis text = Grade.E ∧ dialogueQuality text = Grade.E ∧
  resourceRecognition text = Grade.E ∧ practicalImplications text = Grade.E ∧
  authorityHandling text = Grade.E ∧ conclusionLegitimacy text = Grade.E


/-- The literal citation of the citation scenario. -/
def smithCitation : Text := "(Smith, 2020)".toList

/-- The texts that follow the matches of a global scan: the scan of `matchAllAux`, keeping
for every match what comes after it instead of the match itself. -/
def matchRests (m : Text → Option Nat) : Nat → Text → List Text
  | _, [] => match m [] with
    | some _ => [[]]
    | none => []
  | skip + 1, _ :: cs => matchRests m skip cs
  | 0, c :: cs =>
    match m (c :: cs) with
    | some (k + 1) => cs.drop k :: matchRests m k cs
    | some 0 => (c :: cs) :: matchRests m 0 cs
    | none => matchRests m 0 cs

/-! ## Properties -/

theorem gradeToPoints_pos (g : Grade) : 1 ≤ gradeToPoints g := by
  cases g <;> decide

theorem gradeToPoints_le (g : Grade) : gradeToPoints g ≤ 5 := by
  cases g <;> decide

theorem mathRound_eq_floor (x : ℚ) : mathRound x = ⌊x + 1 / 2⌋ := rfl

/-- The inner loop in closed form, from any accumulator. -/
theorem foldl_scoreMember (text : Text) (l : List (String × SubCriterion)) (acc : CategoryScore) :
    (l.map fun p => (p.1, Member.object p.2)).foldl (scoreMember text) acc =
      { subScores := acc.subScores ++ l.map fun p =>
          (p.1, { grade := p.2.analyze text, points := gradeToPoints (p.2.analyze text),
                  weightedScore := (gradeToPoints (p.2.analyze text) : ℚ) * p.2.weight })
        total := acc.total +
          (l.map fun p => (gradeToPoints (p.2.analyze text) : ℚ) * p.2.weight).sum } := by
  induction l generalizing acc with
  | nil => simp
  | cons p l ih =>
    simp only [List.map_cons, List.foldl_cons, ih, scoreMember, List.sum_cons,
      List.append_assoc, List.singleton_append, add_assoc]

/-- The inner loop in closed form. -/
theorem scoreCategory_eq (text : Text) (c : Category) :
    scoreCategory text c =
      { subScores := c.subCriteria.map fun p =>
          (p.1, { grade := p.2.analyze text, points := gradeToPoints (p.2.analyze text),
                  weightedScore := (gradeToPoints (p.2.analyze text) : ℚ) * p.2.weight })
        total := (c.subCriteria.map fun p =>
          (gradeToPoints (p.2.analyze text) : ℚ) * p.2.weight).sum } := by
  unfold scoreCategory Category.entries
  rw [List.foldl_cons]
  simp only [scoreMember]
  rw [foldl_scoreMember]
  simp

/-- The outer loop in closed form, from any accumulator. -/
theorem foldl_scoreStep (text : Text) (l : List (String × Category))
    (acc : List (String × CategoryScore) × ℚ) :
    l.foldl (scoreStep text) acc =
      (acc.1 ++ l.map fun e => (e.1, scoreCategory text e.2),
       acc.2 + (l.map fun e => (scoreCategory text e.2).total * e.2.weight).sum) := by
  induction l generalizing acc with
  | nil => simp
  | cons e l ih =>
    simp only [List.foldl_cons, ih, scoreStep, List.map_cons, List.sum_cons,
      List.append_assoc, List.singleton_append, add_assoc]

theorem scoreAll_eq (text : Text) :
    scoreAll text =
      (criteria.map fun e => (e.1, scoreCategory text e.2),
       (criteria.map fun e => (scoreCategory text e.2).total * e.2.weight).sum) := by
  unfold scoreAll
  rw [foldl_scoreStep]
  simp

/-- The unrounded score as a weighted sum of the ten point values. -/
theorem rawScore_eq (text : Text) :
    rawScore text =
      (6 / 5) * gradeToPoints (getImpactLevel text)
      + (3 / 5) * gradeToPoints (getTemporalRelevance text)
      + (1 / 10) * gradeToPoints (questionQuality text)
      + (1 / 10) * gradeToPoints (argumentStructure text)
      + (12 / 25) * gradeToPoints (networkAnalysis text)
      + (8 / 25) * gradeToPoints (dialogueQuality text)
      + (6 / 25) * gradeToPoints (resourceRecognition text)
      + (21 / 100) * gradeToPoints (practicalImplications text)
      + (3 / 4) * gradeToPoints (authorityHandling text)
      + (1 / 2) * gradeToPoints (conclusionLegitimacy text) := by
  unfold rawScore
  rw [scoreAll_eq]
  simp only [scoreCategory_eq, criteria, List.map_cons, List.map_nil, List.sum_cons,
    List.sum_nil]
  ring

theorem rawScore_bounds (text : Text) : 9 / 2 ≤ rawScore text ∧ rawScore text ≤ 45 / 2 := by
  rw [rawScore_eq]
  have cast_bounds : ∀ g : Grade, (1 : ℚ) ≤ gradeToPoints g ∧ ((gradeToPoints g : ℕ) : ℚ) ≤ 5 := by
    intro g
    exact ⟨by exact_mod_cast gradeToPoints_pos g, by exact_mod_cast gradeToPoints_le g⟩
  have h1 := cast_bounds (getImpactLevel text)
  have h2 := cast_bounds (getTemporalRelevance text)
  have h3 := cast_bounds (questionQuality text)
  have h4 := cast_bounds (argumentStructure text)
  have h5 := cast_bounds (networkAnalysis text)
  have h6 := cast_bounds (dialogueQuality text)
  have h7 := cast_bounds (resourceRecognition text)
  have h8 := cast_bounds (practicalImplications text)
  have h9 := cast_bounds (authorityHandling text)
  have h10 := cast_bounds (conclusionLegitimacy text)
  constructor <;> linarith [h1.1, h1.2, h2.1, h2.2, h3.1, h3.2, h4.1, h4.2, h5.1, h5.2,
    h6.1, h6.2, h7.1, h7.2, h8.1, h8.2, h9.1, h9.2, h10.1, h10.2]

theorem finalGradeOf_lt_fifty {x : ℚ} (h : x < 50) : finalGradeOf x = Grade.E := by
  unfold finalGradeOf
  rw [if_neg (by linarith), if_neg (by linarith), if_neg (by linarith), if_neg (by linarith)]

theorem finalScore_bounds (text : Text) :
    5 ≤ (analyzeText text).finalScore ∧ (analyzeText text).finalScore ≤ 23 := by
  have hb := rawScore_bounds text
  show 5 ≤ mathRound (rawScore text) ∧ mathRound (rawScore text) ≤ 23
  rw [mathRound_eq_floor]
  constructor
  · apply Int.le_floor.mpr
    push_cast
    linarith [hb.1]
  · have : ⌊rawScore text + 1 / 2⌋ < 24 := by
      apply Int.floor_lt.mpr
      push_cast
      linarith [hb.2]
    omega

/-- C1. For every text, `finalScore` is an integer between 0 and 100, `finalGrade` is one
of the five letters, and `finalGrade` is the grade that the cascade `>= 85`, `>= 75`,
`>= 65`, `>= 50`, else `E` gives to the rounded `finalScore`. -/
theorem analyzeText_finalScore_finalGrade (text : Text) :
    0 ≤ (analyzeText text).finalScore ∧ (analyzeText text).finalScore ≤ 100 ∧
    (analyzeText text).finalGrade ∈ [Grade.A, Grade.B, Grade.C, Grade.D, Grade.E] ∧
    (analyzeText text).finalGrade = finalGradeOf ((analyzeText text).finalScore : ℚ) := by
  have hs := finalScore_bounds text
  have hb := rawScore_bounds text
  have hE : (analyzeText text).finalGrade = Grade.E :=
    finalGradeOf_lt_fifty (by linarith [hb.2])
  have hc : (((analyzeText text).finalScore : ℤ) : ℚ) ≤ 23 := by exact_mod_cast hs.2
  refine ⟨by omega, by omega, ?_, ?_⟩
  · rw [hE]; simp
  · rw [hE, finalGradeOf_lt_fifty (by linarith)]

/-- C2. In the result of `analyzeText`, category by category in the order of `criteria`:
the recorded sub-scores are those of the category's sub-criteria in order, each with the
grade of its `analyze`, the points of that grade and `weightedScore = points * weight`;
the category `total` is the plain sum of these `weightedScore`s; and `finalScore` is
`round(20 * sum of total * category weight)`. -/
theorem analyzeText_weighted_aggregation (text : Text) :
    List.Forall₂
      (fun (c : String × Category) (s : String × CategoryScore) =>
        s.1 = c.1 ∧
        List.Forall₂
          (fun (sub : String × SubCriterion) (r : String × SubScore) =>
            r.1 = sub.1 ∧ r.2.grade = sub.2.analyze text ∧
            r.2.points = gradeToPoints r.2.grade ∧
            r.2.weightedScore = (r.2.points : ℚ) * sub.2.weight)
          c.2.subCriteria s.2.subScores ∧
        s.2.total = (s.2.subScores.map fun r => r.2.weightedScore).sum)
      criteria (analyzeText text).categoryScores ∧
    (analyzeText text).finalScore =
      mathRound (20 * (List.zipWith (fun (c : String × Category) (s : String × CategoryScore) =>
        s.2.total * c.2.weight) criteria (analyzeText text).categoryScores).sum) := by
  have hcat : (analyzeText text).categoryScores =
      criteria.map fun e => (e.1, scoreCategory text e.2) := by
    show (scoreAll text).1 = _
    rw [scoreAll_eq]
  constructor
  · rw [hcat, List.forall₂_map_right_iff, List.forall₂_same]
    intro c _
    refine ⟨rfl, ?_, ?_⟩
    · rw [scoreCategory_eq, List.forall₂_map_right_iff, List.forall₂_same]
      intro sub _
      exact ⟨rfl, rfl, rfl, rfl⟩
    · rw [scoreCategory_eq]
      simp [Function.comp_def]
  · rw [hcat]
    show mathRound (rawScore text) = _
    congr 1
    unfold rawScore
    rw [scoreAll_eq, mul_comm]
    congr 2

/-! ### Keyword patterns -/

theorem execAt_some_length {kws : List (List Char)} {prev : Option Char} {t : Text}
    {r : List Text} (h : execAt kws prev t = some r) : ∃ m, r = [m, m] := by
  unfold execAt at h
  split at h
  · rw [Option.map_eq_some'] at h
    obtain ⟨m, _, hm⟩ := h
    exact ⟨m, hm.symm⟩
  · cases h

theorem execFrom_some_length {kws : List (List Char)} {prev : Option Char} {t : Text}
    {r : List Text} (h : execFrom kws prev t = some r) : ∃ m, r = [m, m] := by
  induction t generalizing prev with
  | nil => exact execAt_some_length h
  | cons c cs ih =>
    unfold execFrom at h
    split at h
    · next r' hr =>
      cases h
      exact execAt_some_length hr
    · exact ih h

theorem matchLength_eq (kws : List (List Char)) (text : Text) :
    matchLength kws text = if (execFrom kws none text).isSome then 2 else 0 := by
  unfold matchLength
  cases h : execFrom kws none text with
  | none => rfl
  | some r =>
    obtain ⟨m, rfl⟩ := execFrom_some_length h
    rfl

theorem impactScore_impactSample : impactScore impactSample = 10 := by
  have h1 : matchLength directLife impactSample = 2 := by decide
  have h2 : matchLength systemic impactSample = 2 := by decide
  have h3 : matchLength indirect impactSample = 0 := by decide
  have h4 : matchLength localArea impactSample = 0 := by decide
  unfold impactScore
  rw [h1, h2, h3, h4]
  norm_num

theorem getImpactLevel_impactSample : getImpactLevel impactSample = Grade.B := by
  unfold getImpactLevel
  simp only [impactScore_impactSample]
  norm_num

/-- C3, as the code has it. On `"health and safety crisis policy reform"` the patterns
`directLife` and `systemic` match and `indirect` and `local` do not; each match array has
length 2 (the match and its capture group), so the composite score is
`2 * 3 + 2 * 2 = 10`, which is not above 10, and the grade is B. -/
theorem impactSample_score_ten_grade_B :
    execFrom directLife none impactSample = some ["health".toList, "health".toList] ∧
    execFrom systemic none impactSample = some ["policy".toList, "policy".toList] ∧
    matchLength directLife impactSample = 2 ∧ matchLength systemic impactSample = 2 ∧
    matchLength indirect impactSample = 0 ∧ matchLength localArea impactSample = 0 ∧
    impactScore impactSample = 10 ∧ getImpactLevel impactSample = Grade.B :=
  ⟨by decide, by decide, by decide, by decide, by decide, by decide,
    impactScore_impactSample, getImpactLevel_impactSample⟩

/-- C3, as stated, fails: on the sample text the composite impact score is not above 10
and the grade is not A. -/
theorem impactSample_not_grade_A :
    ¬ (10 < impactScore impactSample) ∧ getImpactLevel impactSample ≠ Grade.A := by
  rw [impactScore_impactSample, getImpactLevel_impactSample]
  exact ⟨by norm_num, by decide⟩

/-- C4, as the code has it. For every keyword pattern and every text, the count
`(text.match(pattern) || []).length` is 0 when the pattern has no match and 2 when it has
at least one: the match array holds the matched text and the text of the capture
group. -/
theorem matchLength_zero_or_two (kws : List (List Char)) (text : Text) :
    (execFrom kws none text = none ∧ matchLength kws text = 0) ∨
    (∃ m, execFrom kws none text = some [m, m] ∧ matchLength kws text = 2) := by
  cases h : execFrom kws none text with
  | none => exact Or.inl ⟨rfl, by simp [matchLength, h]⟩
  | some r =>
    obtain ⟨m, rfl⟩ := execFrom_some_length h
    exact Or.inr ⟨m, rfl, by simp [matchLength, h]⟩

/-- C4, as stated, fails: on the text `"health"` the pattern `directLife` has a match
and its count is 2, neither 0 nor 1. -/
theorem matchLength_health_not_one :
    (execFrom directLife none "health".toList).isSome = true ∧
    matchLength directLife "health".toList = 2 ∧
    ¬ (matchLength directLife "health".toList = 0 ∨
       matchLength directLife "health".toList = 1) := by
  decide

/-! ### Degenerate texts -/

/-- C5, at the failing input. The class of sentence terminators of the source has no
ASCII full stop, so on `"This is a simple test. It has two sentences."` the sentence
pattern has no match and `getSentenceComplexity` returns no record at all, not 2; with a
`!` and a `?` in place of the two full stops it returns 2 records. -/
theorem getSentenceComplexity_simpleSample :
    isTerminator '.' = false ∧
    matchAll sentenceAt simpleSample = [] ∧
    getSentenceComplexity simpleSample = [] ∧
    (getSentenceComplexity "This is a simple test! It has two sentences?".toList).length = 2 := by
  refine ⟨by decide, by decide, by decide, by decide⟩

theorem wordStats_total_zero {text : Text} (h : (getWordStats text).total = 0) :
    matchAll wordAt text = [] := by
  unfold getWordStats at h
  exact List.length_eq_zero.mp h

/-- C6, as the code has it. For every text without a word (`total = 0`), `unique` is 0
and `ratio` is the quotient `0 / 0`, that is `NaN`: the division has no guard. -/
theorem getWordStats_ratio_nan (text : Text) (h : (getWordStats text).total = 0) :
    (getWordStats text).unique = 0 ∧ (getWordStats text).ratio = JSNum.nan := by
  have hw := wordStats_total_zero h
  unfold getWordStats
  simp [hw, JSNum.div]

theorem getWordStats_ratio_nan_witness :
    (getWordStats "?! ...".toList).total = 0 ∧
    (getWordStats "?! ...".toList).unique = 0 ∧
    (getWordStats "?! ...".toList).ratio = JSNum.nan :=
  ⟨by decide, getWordStats_ratio_nan "?! ...".toList (by decide)⟩

/-- C6, as stated, fails: for the empty string `total` is 0 and `ratio` is `NaN`, not the
number 0. -/
theorem getWordStats_empty_ratio_not_zero :
    (getWordStats []).total = 0 ∧ (getWordStats []).ratio = JSNum.nan ∧
    (getWordStats []).ratio ≠ JSNum.fin 0 := by
  decide

theorem questionScore_nan {text : Text} (h : getSentenceComplexity text = []) :
    (getDialecticalQuality text).questionScore = JSNum.nan := by
  unfold getDialecticalQuality avgComplexity
  simp [h, JSNum.div, JSNum.addFin]

theorem questionQuality_of_nan {text : Text}
    (h : (getDialecticalQuality text).questionScore = JSNum.nan) :
    questionQuality text = Grade.E := by
  unfold questionQuality
  simp [h, JSNum.gt]

/-- C7. For every text with zero sentences the average complexity is `0 / 0`, the
`questionScore` is `NaN` whatever the count of the question pattern, every comparison of
the cascade is false and the `questionQuality` grade is E; the sub-score recorded for it
is the finite `1 * 0.05`, so that `finalScore` is the integer `round` of a finite sum. -/
theorem questionQuality_zero_sentences (text : Text) (h : getSentenceComplexity text = []) :
    avgComplexity (getSentenceComplexity text) = JSNum.nan ∧
    (getDialecticalQuality text).questionScore = JSNum.nan ∧
    questionQuality text = Grade.E ∧
    (∃ s, ("dialecticalCapital", s) ∈ (analyzeText text).categoryScores ∧
      ("questionQuality", { grade := Grade.E, points := 1, weightedScore := 0.05 })
        ∈ s.subScores) ∧
    ((analyzeText text).finalScore : ℚ) = ⌊rawScore text + 1 / 2⌋ ∧
    9 / 2 ≤ rawScore text ∧ rawScore text ≤ 45 / 2 := by
  have hq := questionScore_nan h
  have hE := questionQuality_of_nan hq
  refine ⟨by simp [h, avgComplexity, JSNum.div], hq, hE, ?_, rfl, rawScore_bounds text⟩
  refine ⟨scoreCategory text
    { weight := 0.10
      subCriteria :=
        [ ("questionQuality", { weight := 0.05, analyze := questionQuality }),
          ("argumentStructure", { weight := 0.05, analyze := argumentStructure }) ] }, ?_, ?_⟩
  · show _ ∈ (scoreAll text).1
    rw [scoreAll_eq]
    simp [criteria]
  · rw [scoreCategory_eq]
    simp [hE, gradeToPoints]

theorem questionQuality_zero_sentences_witness :
    getSentenceComplexity "why and how".toList = [] ∧
    matchLength questionWords "why and how".toList = 2 ∧
    questionQuality "why and how".toList = Grade.E :=
  ⟨by decide, by decide,
    (questionQuality_zero_sentences "why and how".toList (by decide)).2.2.1⟩

/-! ### Appending a keyword -/

theorem stripKeyword_append {kw : List Char} {t rest : Text} (s : Text)
    (h : stripKeyword kw t = some rest) : stripKeyword kw (t ++ s) = some (rest ++ s) := by
  induction kw generalizing t with
  | nil =>
    simp only [stripKeyword] at h ⊢
    cases h
    rfl
  | cons p ps ih =>
    cases t with
    | nil => simp [stripKeyword] at h
    | cons c cs =>
      simp only [stripKeyword, List.cons_append] at h ⊢
      split at h
      · next hf => rw [if_pos hf]; exact ih h
      · cases h

theorem stripKeyword_length {kw : List Char} {t rest : Text}
    (h : stripKeyword kw t = some rest) : kw.length ≤ t.length := by
  induction kw generalizing t with
  | nil => simp
  | cons p ps ih =>
    cases t with
    | nil => simp [stripKeyword] at h
    | cons c cs =>
      simp only [stripKeyword] at h
      split at h
      · have := ih h
        simp only [List.length_cons]
        omega
      · cases h

/-- The code point after a text is looked at by `\b` only through its word-character
status: a following non-word character is as good as the end of the text. -/
theorem head?_append_any {rest s : Text} (hs : s.head?.any isBoundaryWordChar = false) :
    (rest ++ s).head?.any isBoundaryWordChar = rest.head?.any isBoundaryWordChar := by
  cases rest with
  | nil => simpa using hs
  | cons c cs => rfl

theorem keywordAt_append {kw : List Char} {prev : Option Char} {t m : Text} {s : Text}
    (hs : s.head?.any isBoundaryWordChar = false) (h : keywordAt kw prev t = some m) :
    keywordAt kw prev (t ++ s) = some m := by
  unfold keywordAt at h ⊢
  cases hk : stripKeyword kw t with
  | none => simp [hk] at h
  | some rest =>
    rw [hk] at h
    rw [stripKeyword_append s hk]
    have hlen := stripKeyword_length hk
    simp only [List.take_append_of_le_length hlen, isWordBoundary, head?_append_any hs] at h ⊢
    exact h

theorem findSome?_isSome_of_imp {α β : Type} (f g : α → Option β) (l : List α)
    (hfg : ∀ a b, f a = some b → (g a).isSome = true)
    (h : (l.findSome? f).isSome = true) : (l.findSome? g).isSome = true := by
  induction l with
  | nil => simp at h
  | cons a l ih =>
    simp only [List.findSome?_cons] at h ⊢
    cases hfa : f a with
    | some b =>
      have := hfg a b hfa
      cases hga : g a with
      | some b' => rfl
      | none => simp [hga] at this
    | none =>
      rw [hfa] at h
      cases hga : g a with
      | some b' => rfl
      | none => exact ih h

theorem execAt_append {kws : List (List Char)} {prev : Option Char} {t s : Text}
    (hs : s.head?.any isBoundaryWordChar = false) (h : (execAt kws prev t).isSome = true) :
    (execAt kws prev (t ++ s)).isSome = true := by
  unfold execAt at h ⊢
  simp only [isWordBoundary, head?_append_any hs]
  split at h
  · next hb =>
    simp only [isWordBoundary] at hb
    rw [if_pos hb]
    simp only [Option.isSome_map'] at h ⊢
    exact findSome?_isSome_of_imp _ _ kws
      (fun kw m hm => by rw [keywordAt_append hs hm]; rfl) h
  · simp at h

theorem execFrom_of_execAt {kws : List (List Char)} {prev : Option Char} {t : Text}
    (h : (execAt kws prev t).isSome = true) : (execFrom kws prev t).isSome = true := by
  cases t with
  | nil => exact h
  | cons c cs =>
    unfold execFrom
    cases he : execAt kws prev (c :: cs) with
    | some r => rfl
    | none => simp [he] at h

/-- A match in a text is still there when a non-word character and more text follow. -/
theorem execFrom_append {kws : List (List Char)} {prev : Option Char} {t s : Text}
    (hs : s.head?.any isBoundaryWordChar = false) (h : (execFrom kws prev t).isSome = true) :
    (execFrom kws prev (t ++ s)).isSome = true := by
  induction t generalizing prev with
  | nil => exact execFrom_of_execAt (execAt_append hs h)
  | cons c cs ih =>
    simp only [List.cons_append]
    unfold execFrom at h ⊢
    cases he : execAt kws prev (c :: cs) with
    | some r =>
      have h2 : (execAt kws prev (c :: cs ++ s)).isSome = true :=
        execAt_append hs (by simp [he])
      simp only [List.cons_append] at h2
      cases he2 : execAt kws prev (c :: (cs ++ s)) with
      | some r2 => rfl
      | none => simp [he2] at h2
    | none =>
      rw [he] at h
      cases he2 : execAt kws prev (c :: (cs ++ s)) with
      | some r2 => rfl
      | none => exact ih h

/-- A match in a suffix, whatever precedes it, is a match in the whole text. -/
theorem execFrom_suffix {kws : List (List Char)} {s : Text}
    (h : ∀ p, (execFrom kws p s).isSome = true) (prev : Option Char) (t : Text) :
    (execFrom kws prev (t ++ s)).isSome = true := by
  induction t generalizing prev with
  | nil => exact h prev
  | cons c cs ih =>
    simp only [List.cons_append]
    unfold execFrom
    cases he : execAt kws prev (c :: (cs ++ s)) with
    | some r => rfl
    | none => exact ih (some c)

theorem execFrom_space_keyword {kws : List (List Char)} {k : List Char}
    (hk : (execAt kws (some ' ') k).isSome = true) (p : Option Char) :
    (execFrom kws p (' ' :: k)).isSome = true := by
  unfold execFrom
  cases he : execAt kws p (' ' :: k) with
  | some r => rfl
  | none => exact execFrom_of_execAt hk

theorem execAt_directLife_keyword {k : List Char} (hk : k ∈ directLife) :
    (execAt directLife (some ' ') k).isSome = true := by
  simp only [directLife, keywords, List.map_cons, List.map_nil, List.mem_cons,
    List.mem_singleton, List.not_mem_nil, or_false] at hk
  rcases hk with h | h | h | h | h | h | h | h <;> subst h <;> decide

theorem matchLength_append_mono (kws : List (List Char)) (t : Text) (k : List Char) :
    matchLength kws t ≤ matchLength kws (t ++ ' ' :: k) := by
  rw [matchLength_eq, matchLength_eq]
  by_cases h : (execFrom kws none t).isSome = true
  · rw [if_pos h, if_pos (execFrom_append (s := ' ' :: k) rfl h)]
  · rw [if_neg h]
    exact Nat.zero_le _

theorem matchLength_directLife_append (t : Text) {k : List Char} (hk : k ∈ directLife) :
    matchLength directLife (t ++ ' ' :: k) = 2 := by
  rw [matchLength_eq,
    if_pos (execFrom_suffix (execFrom_space_keyword (execAt_directLife_keyword hk)) none t)]

theorem impactScore_append_mono (t : Text) (k : List Char) :
    impactScore t ≤ impactScore (t ++ ' ' :: k) := by
  unfold impactScore
  have h1 : (matchLength directLife t : ℚ) ≤ matchLength directLife (t ++ ' ' :: k) := by
    exact_mod_cast matchLength_append_mono directLife t k
  have h2 : (matchLength systemic t : ℚ) ≤ matchLength systemic (t ++ ' ' :: k) := by
    exact_mod_cast matchLength_append_mono systemic t k
  have h3 : (matchLength indirect t : ℚ) ≤ matchLength indirect (t ++ ' ' :: k) := by
    exact_mod_cast matchLength_append_mono indirect t k
  have h4 : (matchLength localArea t : ℚ) ≤ matchLength localArea (t ++ ' ' :: k) := by
    exact_mod_cast matchLength_append_mono localArea t k
  norm_num
  linarith

theorem getImpactLevel_mono {t u : Text} (h : impactScore t ≤ impactScore u) :
    getImpactLevel t ≤ getImpactLevel u := by
  unfold getImpactLevel
  simp only
  split_ifs <;> first | decide | (exfalso; linarith)

/-- C8. For every text `t` and every keyword `k` of the pattern `directLife`, the text
`t + " " + k` has a `directLife` match, no pattern of `getImpactLevel` loses its match,
the composite score does not decrease, and the impact grade of `t + " " + k` is at least
the grade of `t` in the order `E < D < C < B < A`. -/
theorem getImpactLevel_append_keyword (t : Text) (k : List Char) (hk : k ∈ directLife) :
    matchLength directLife (t ++ ' ' :: k) = 2 ∧
    impactScore t ≤ impactScore (t ++ ' ' :: k) ∧
    getImpactLevel t ≤ getImpactLevel (t ++ ' ' :: k) :=
  ⟨matchLength_directLife_append t hk, impactScore_append_mono t k,
    getImpactLevel_mono (impactScore_append_mono t k)⟩

theorem getImpactLevel_append_keyword_witness :
    "safety".toList ∈ directLife ∧
    getImpactLevel "local policy".toList ≤ getImpactLevel ("local policy".toList ++ ' ' :: "safety".toList) :=
  ⟨by decide, (getImpactLevel_append_keyword "local policy".toList "safety".toList (by decide)).2.2⟩

/-! ### Texts without any signal -/

theorem analyzeText_of_allLowest {text : Text} (h : AllLowest text) :
    (analyzeText text).categoryScores = lowestScores ∧
    (analyzeText text).finalScore = 5 ∧ (analyzeText text).finalGrade = Grade.E := by
  obtain ⟨h1, h2, h3, h4, h5, h6, h7, h8, h9, h10⟩ := h
  have hraw : rawScore text = 9 / 2 := by
    rw [rawScore_eq, h1, h2, h3, h4, h5, h6, h7, h8, h9, h10]
    norm_num [gradeToPoints]
  refine ⟨?_, ?_, ?_⟩
  · show (scoreAll text).1 = _
    rw [scoreAll_eq]
    simp only [scoreCategory_eq, criteria, List.map_cons, List.map_nil, List.sum_cons,
      List.sum_nil, h1, h2, h3, h4, h5, h6, h7, h8, h9, h10, gradeToPoints, lowestScores]
    norm_num
  · show mathRound (rawScore text) = 5
    rw [hraw, mathRound_eq_floor]
    norm_num
  · show finalGradeOf (rawScore text) = Grade.E
    exact finalGradeOf_lt_fifty (by rw [hraw]; norm_num)

/-- A text with no sentence, no keyword match, no bracketed span, no quote character and
no number is graded E by all ten analyses. -/
theorem allLowest_of_no_signal {text : Text}
    (hs : getSentenceComplexity text = [])
    (hi : matchLength directLife text = 0 ∧ matchLength systemic text = 0 ∧
      matchLength indirect text = 0 ∧ matchLength localArea text = 0)
    (ht : matchLength longTerm text = 0 ∧ matchLength mediumTerm text = 0 ∧
      matchLength current text = 0 ∧ matchLength shortTerm text = 0)
    (hso : matchLength multipleViews text = 0 ∧ matchLength groupPerspectives text = 0 ∧
      matchLength powerRelations text = 0)
    (hm : matchLength economic text = 0 ∧ matchLength material text = 0 ∧
      matchLength practical text = 0)
    (hn : (matchAll numberAt text).length = 0)
    (hc : (matchAll academicAt text).length = 0 ∧ (matchAll (charAt isQuote) text).length = 0 ∧
      (matchAll bracketSpanAt text).length = 0) :
    AllLowest text := by
  refine ⟨?_, ?_, ?_, ?_, ?_, ?_, ?_, ?_, ?_, ?_⟩
  · simp [getImpactLevel, impactScore, hi.1, hi.2.1, hi.2.2.1, hi.2.2.2]
    norm_num
  · simp [getTemporalRelevance, temporalScore, ht.1, ht.2.1, ht.2.2.1, ht.2.2.2]
    norm_num
  · exact questionQuality_of_nan (questionScore_nan hs)
  · simp [argumentStructure, getDialecticalQuality, hs]
  · simp [networkAnalysis, getSocialReasoning, hso.1, hso.2.1, hso.2.2]
  · simp [dialogueQuality, getSocialReasoning, hs]
  · simp [resourceRecognition, getMaterialAnalysis, hm.1, hm.2.1]
  · simp [practicalImplications, getMaterialAnalysis, getNumericalContent, hm.2.2, hn]
  · simp [authorityHandling, getSymbolicSynthesis, getCitationLevel, hc.1, hc.2.1, hc.2.2]
    norm_num
  · simp [conclusionLegitimacy, getSymbolicSynthesis, hs]

theorem allLowest_empty : AllLowest [] :=
  allLowest_of_no_signal (by decide) (by decide) (by decide) (by decide) (by decide)
    (by decide) (by decide)

theorem allLowest_simpleSample : AllLowest simpleSample :=
  allLowest_of_no_signal (by decide) (by decide) (by decide) (by decide) (by decide)
    (by decide) (by decide)

/-- C9. For the empty string `analyzeText` has a value in which the word counts, the
number of sentences, the three citation counts, the count of every keyword pattern, the
number count and every score that is a count are 0, every sub-criterion is graded E with
1 point, and `finalGrade` is E (`finalScore` is 5). -/
theorem analyzeText_empty :
    (analyzeText []).textStats.wordStats.total = 0 ∧
    (analyzeText []).textStats.wordStats.unique = 0 ∧
    (analyzeText []).textStats.sentenceComplexity = [] ∧
    (analyzeText []).textStats.citations = { academic := 0, quotes := 0, references := 0 } ∧
    ([directLife, systemic, indirect, localArea, longTerm, mediumTerm, current, shortTerm,
        questionWords, multipleViews, groupPerspectives, powerRelations, economic, material,
        practical].map fun kws => matchLength kws []) = List.replicate 15 0 ∧
    impactScore [] = 0 ∧ temporalScore [] = 0 ∧
    (getNumericalContent []).numbers = 0 ∧
    (analyzeText []).textStats.dialectical.argumentScore = 0 ∧
    (analyzeText []).textStats.social = { networkScore := 0, dialogueScore := 0 } ∧
    (analyzeText []).textStats.material = { resourceScore := 0, practicalScore := 0 } ∧
    (analyzeText []).textStats.symbolic = { authorityScore := 0, legitimacyScore := 0 } ∧
    (analyzeText []).textStats.impact = Grade.E ∧
    (analyzeText []).textStats.temporal = Grade.E ∧
    (analyzeText []).categoryScores = lowestScores ∧
    (analyzeText []).finalScore = 5 ∧
    (analyzeText []).finalGrade = Grade.E := by
  have hA := analyzeText_of_allLowest allLowest_empty
  refine ⟨by decide, by decide, by decide, ?_, by decide, ?_, ?_, by decide, by decide,
    by decide, by decide, ?_, allLowest_empty.1, allLowest_empty.2.1, hA.1, hA.2.1, hA.2.2⟩
  · show getCitationLevel [] = _
    simp [getCitationLevel, matchAll, matchAllAux, academicAt, charAt, bracketSpanAt]
  · simp [impactScore, matchLength, execFrom, execAt, isWordBoundary]
  · simp [temporalScore, matchLength, execFrom, execAt, isWordBoundary]
  · show getSymbolicSynthesis [] = _
    simp [getSymbolicSynthesis, getCitationLevel, getSentenceComplexity, matchAll, matchAllAux,
      academicAt, charAt, bracketSpanAt, sentenceAt, runOf]

/-- C10. For `"This is a simple test. It has two sentences."`, `analyzeText` reports 9
words, the three citation counts 0, an impact score of 0 with `socialSignificance`
graded E, and `finalGrade` E. -/
theorem analyzeText_simpleSample :
    (analyzeText simpleSample).textStats.wordStats.total = 9 ∧
    (analyzeText simpleSample).textStats.citations =
      { academic := 0, quotes := 0, references := 0 } ∧
    impactScore simpleSample = 0 ∧
    (analyzeText simpleSample).textStats.impact = Grade.E ∧
    (∃ s, ("informationImpact", s) ∈ (analyzeText simpleSample).categoryScores ∧
      ("socialSignificance", { grade := Grade.E, points := 1, weightedScore := 0.20 })
        ∈ s.subScores) ∧
    (analyzeText simpleSample).finalGrade = Grade.E := by
  have hA := analyzeText_of_allLowest allLowest_simpleSample
  have h1 : matchLength directLife simpleSample = 0 := by decide
  have h2 : matchLength systemic simpleSample = 0 := by decide
  have h3 : matchLength indirect simpleSample = 0 := by decide
  have h4 : matchLength localArea simpleSample = 0 := by decide
  have c1 : (matchAll academicAt simpleSample).length = 0 := by decide
  have c2 : (matchAll (charAt isQuote) simpleSample).length = 0 := by decide
  have c3 : (matchAll bracketSpanAt simpleSample).length = 0 := by decide
  refine ⟨by decide, ?_, ?_, allLowest_simpleSample.1, ?_, hA.2.2⟩
  · show getCitationLevel simpleSample = _
    simp [getCitationLevel, c1, c2, c3]
  · simp [impactScore, h1, h2, h3, h4]
  · rw [hA.1]
    exact ⟨_, List.mem_cons_self _ _, List.mem_cons_self _ _⟩

/-! ### Global matches -/

/-- Every match of a global scan is the match found at some index of the text. -/
theorem mem_matchAllAux {m : Text → Option Nat} {skip : Nat} {t x : Text}
    (h : x ∈ matchAllAux m skip t) : ∃ s n, s <:+ t ∧ m s = some n ∧ x = s.take n := by
  induction t generalizing skip with
  | nil =>
    unfold matchAllAux at h
    cases hm : m [] with
    | none => simp [hm] at h
    | some n =>
      simp only [hm, List.mem_singleton] at h
      exact ⟨[], n, List.suffix_refl _, hm, by simp [h]⟩
  | cons c cs ih =>
    cases skip with
    | succ k =>
      rw [matchAllAux] at h
      obtain ⟨s, n, hs, hm, hx⟩ := ih h
      exact ⟨s, n, hs.trans (List.suffix_cons c cs), hm, hx⟩
    | zero =>
      rw [matchAllAux] at h
      cases hm : m (c :: cs) with
      | none =>
        simp only [hm] at h
        obtain ⟨s, n, hs, hm', hx⟩ := ih h
        exact ⟨s, n, hs.trans (List.suffix_cons c cs), hm', hx⟩
      | some n =>
        cases n with
        | zero =>
          simp only [hm, List.mem_cons] at h
          rcases h with h | h
          · exact ⟨c :: cs, 0, List.suffix_refl _, hm, by simp [h]⟩
          · obtain ⟨s, n, hs, hm', hx⟩ := ih h
            exact ⟨s, n, hs.trans (List.suffix_cons c cs), hm', hx⟩
        | succ k =>
          simp only [hm, List.mem_cons] at h
          rcases h with h | h
          · exact ⟨c :: cs, k + 1, List.suffix_refl _, hm, h⟩
          · obtain ⟨s, n, hs, hm', hx⟩ := ih h
            exact ⟨s, n, hs.trans (List.suffix_cons c cs), hm', hx⟩

theorem runOf_some {p : Char → Bool} {t : Text} {n : Nat} (h : runOf p t = some n) :
    n = (t.takeWhile p).length ∧ 0 < n := by
  unfold runOf at h
  split at h
  · cases h
  · next k hk =>
    cases h
    exact ⟨hk.symm, Nat.succ_pos _⟩

theorem drop_length_takeWhile (p : Char → Bool) (t : Text) :
    t.drop (t.takeWhile p).length = t.dropWhile p := by
  induction t with
  | nil => rfl
  | cons c cs ih =>
    by_cases hc : p c = true
    · simp [List.takeWhile_cons, List.dropWhile_cons, hc, ih]
    · simp [List.takeWhile_cons, List.dropWhile_cons, hc]

theorem take_length_takeWhile (p : Char → Bool) (t : Text) :
    t.take (t.takeWhile p).length = t.takeWhile p := by
  induction t with
  | nil => rfl
  | cons c cs ih =>
    by_cases hc : p c = true
    · simp [List.takeWhile_cons, hc, ih]
    · simp [List.takeWhile_cons, hc]

/-- Passing the rest of a match is dropping it. -/
theorem matchAllAux_skip (m : Text → Option Nat) (t : Text) (k : Nat) (hk : k ≤ t.length) :
    matchAllAux m k t = matchAllAux m 0 (t.drop k) := by
  induction t generalizing k with
  | nil =>
    have : k = 0 := by simpa using hk
    subst this
    rfl
  | cons c cs ih =>
    cases k with
    | zero => rfl
    | succ k =>
      rw [matchAllAux, List.drop_succ_cons]
      exact ih k (by simpa using hk)

/-- The scan for words, one code point at a time: a word character starts the word made
of it and of the word characters that follow, and the scan resumes after them. -/
theorem matchAll_wordAt_cons (c : Char) (cs : Text) :
    matchAll wordAt (c :: cs) =
      if isWordChar c = true then
        (c :: cs.takeWhile isWordChar) :: matchAll wordAt (cs.dropWhile isWordChar)
      else matchAll wordAt cs := by
  unfold matchAll
  rw [matchAllAux]
  by_cases hc : isWordChar c = true
  · have hw : wordAt (c :: cs) = some ((cs.takeWhile isWordChar).length + 1) := by
      simp [wordAt, runOf, List.takeWhile_cons, hc]
    rw [hw, if_pos hc]
    simp only
    rw [matchAllAux_skip _ _ _ (List.takeWhile_prefix _).length_le, drop_length_takeWhile]
    congr 1
    rw [List.take_succ_cons]
    congr 1
    exact take_length_takeWhile _ _
  · have hw : wordAt (c :: cs) = none := by
      simp [wordAt, runOf, List.takeWhile_cons, hc]
    rw [hw, if_neg hc]

theorem head?_dropWhile_isWordChar (cs : Text) :
    ∀ x ∈ (cs.dropWhile isWordChar).head?, isWordChar x = false := by
  induction cs with
  | nil => simp
  | cons c cs ih =>
    by_cases hc : isWordChar c = true
    · simpa [List.dropWhile_cons, hc] using ih
    · simp [List.dropWhile_cons, hc]

/-- Every match of the word pattern is a maximal run of word characters of the text. -/
theorem wordAt_maximal_run (n : Nat) (text : Text) (hn : text.length ≤ n) (w : Text)
    (hw : w ∈ matchAll wordAt text) :
    ∃ pre post, text = pre ++ w ++ post ∧ w ≠ [] ∧ (∀ c ∈ w, isWordChar c = true) ∧
      (∀ c ∈ pre.getLast?, isWordChar c = false) ∧
      (∀ c ∈ post.head?, isWordChar c = false) := by
  induction n generalizing text w with
  | zero =>
    have : text = [] := List.length_eq_zero.mp (Nat.le_zero.mp hn)
    subst this
    simp [matchAll, matchAllAux, wordAt, runOf] at hw
  | succ n ih =>
    cases text with
    | nil => simp [matchAll, matchAllAux, wordAt, runOf] at hw
    | cons c cs =>
      rw [matchAll_wordAt_cons] at hw
      have hlen : cs.length ≤ n := by simpa using hn
      by_cases hc : isWordChar c = true
      · rw [if_pos hc, List.mem_cons] at hw
        rcases hw with rfl | hw
        · refine ⟨[], cs.dropWhile isWordChar, ?_, List.cons_ne_nil _ _, ?_, by simp,
            head?_dropWhile_isWordChar cs⟩
          · simp [List.takeWhile_append_dropWhile]
          · intro x hx
            rcases List.mem_cons.mp hx with rfl | hx
            · exact hc
            · exact List.mem_takeWhile_imp hx
        · have hdl : (cs.dropWhile isWordChar).length ≤ n :=
            le_trans (List.dropWhile_suffix _).length_le hlen
          obtain ⟨pre, post, hsplit, hne, hall, hpre, hpost⟩ := ih _ hdl w hw
          have hpre_ne : pre ≠ [] := by
            intro hnil
            subst hnil
            cases w with
            | nil => exact hne rfl
            | cons x xs =>
              have h1 := head?_dropWhile_isWordChar cs x (by rw [hsplit]; simp)
              have h2 := hall x (List.mem_cons_self _ _)
              rw [h1] at h2
              cases h2
          refine ⟨(c :: cs.takeWhile isWordChar) ++ pre, post, ?_, hne, hall, ?_, hpost⟩
          · have := List.takeWhile_append_dropWhile isWordChar cs
            rw [hsplit] at this
            simp only [List.cons_append, List.append_assoc] at this ⊢
            rw [this]
          · intro x hx
            rw [List.getLast?_append_of_ne_nil _ hpre_ne] at hx
            exact hpre x hx
      · rw [if_neg hc] at hw
        obtain ⟨pre, post, hsplit, hne, hall, hpre, hpost⟩ := ih cs hlen w hw
        refine ⟨c :: pre, post, by rw [hsplit]; simp, hne, hall, ?_, hpost⟩
        intro x hx
        cases pre with
        | nil =>
          simp at hx
          subst hx
          simpa using hc
        | cons p ps =>
          rw [List.getLast?_cons_cons] at hx
          exact hpre x hx

/-! ### Word statistics -/

/-- C12. For every text, `total` is the number of matches of the word pattern, each of
them a maximal run of letter or number characters of the text, `unique` is the number of
distinct matches, and `unique <= total`; when `total > 0`, `ratio` is the finite quotient
`unique / total`, above 0 and at most 1. -/
theorem getWordStats_unique_le_total (text : Text) :
    (getWordStats text).total = (matchAll wordAt text).length ∧
    (∀ w ∈ matchAll wordAt text, ∃ pre post, text = pre ++ w ++ post ∧ w ≠ [] ∧
      (∀ c ∈ w, isWordChar c = true) ∧ (∀ c ∈ pre.getLast?, isWordChar c = false) ∧
      (∀ c ∈ post.head?, isWordChar c = false)) ∧
    (getWordStats text).unique = (matchAll wordAt text).toFinset.card ∧
    (getWordStats text).unique ≤ (getWordStats text).total ∧
    (0 < (getWordStats text).total →
      (getWordStats text).ratio =
        JSNum.fin (((getWordStats text).unique : ℚ) / (getWordStats text).total) ∧
      (0 : ℚ) < ((getWordStats text).unique : ℚ) / (getWordStats text).total ∧
      ((getWordStats text).unique : ℚ) / (getWordStats text).total ≤ 1) := by
  have hle : (matchAll wordAt text).dedup.length ≤ (matchAll wordAt text).length :=
    (List.dedup_sublist _).length_le
  refine ⟨rfl, wordAt_maximal_run text.length text (Nat.le_refl _),
    (List.card_toFinset _).symm, hle, ?_⟩
  intro hpos
  have hpos' : 0 < (matchAll wordAt text).length := hpos
  have hne : matchAll wordAt text ≠ [] := List.length_pos.mp hpos'
  have hu : 0 < (matchAll wordAt text).dedup.length := by
    apply List.length_pos.mpr
    intro h
    exact hne (List.dedup_eq_nil _ |>.mp h)
  have hq : (0 : ℚ) < ((matchAll wordAt text).length : ℚ) := by exact_mod_cast hpos'
  have huq : (0 : ℚ) < ((matchAll wordAt text).dedup.length : ℚ) := by exact_mod_cast hu
  have hleq : ((matchAll wordAt text).dedup.length : ℚ) ≤ (matchAll wordAt text).length := by
    exact_mod_cast hle
  refine ⟨?_, ?_, ?_⟩
  · show JSNum.div _ _ = _
    unfold JSNum.div
    rw [if_neg (ne_of_gt hq)]
    rfl
  · exact div_pos huq hq
  · exact (div_le_one hq).mpr hleq

theorem getWordStats_unique_le_total_witness :
    (getWordStats "a b a".toList).total = 3 ∧ (getWordStats "a b a".toList).unique = 2 ∧
    (getWordStats "a b a".toList).ratio =
      JSNum.fin (((getWordStats "a b a".toList).unique : ℚ) / (getWordStats "a b a".toList).total) :=
  ⟨by decide, by decide,
    ((getWordStats_unique_le_total "a b a".toList).2.2.2.2 (by decide)).1⟩

/-! ### The rubric -/

/-- C13. For every text, each of the ten analyses returns one of the five letters, the
table `gradeToPoints` is `A:5, B:4, C:3, D:2, E:1`, the recorded points are the table
value of the recorded grade (between 1 and 5), and each of the five categories records
exactly its two sub-criteria: the `weight` entry of a category is not scored. -/
theorem analyzeText_subScores_points (text : Text) :
    (gradeToPoints Grade.A = 5 ∧ gradeToPoints Grade.B = 4 ∧ gradeToPoints Grade.C = 3 ∧
      gradeToPoints Grade.D = 2 ∧ gradeToPoints Grade.E = 1) ∧
    (∀ c ∈ criteria, ∀ sub ∈ c.2.subCriteria,
      sub.2.analyze text ∈ [Grade.A, Grade.B, Grade.C, Grade.D, Grade.E]) ∧
    (∀ c ∈ criteria, (c.2.entries.map Prod.fst).head? = some "weight") ∧
    (analyzeText text).categoryScores.map (fun s => (s.1, s.2.subScores.map Prod.fst)) =
      [ ("informationImpact", ["socialSignificance", "temporalRelevance"]),
        ("dialecticalCapital", ["questionQuality", "argumentStructure"]),
        ("socialReasoning", ["networkAnalysis", "dialogueQuality"]),
        ("materialAnalysis", ["resourceRecognition", "practicalImplications"]),
        ("symbolicSynthesis", ["authorityHandling", "conclusionLegitimacy"]) ] ∧
    (∀ s ∈ (analyzeText text).categoryScores, ∀ r ∈ s.2.subScores,
      r.2.points = gradeToPoints r.2.grade ∧ 1 ≤ r.2.points ∧ r.2.points ≤ 5) := by
  have hcat : (analyzeText text).categoryScores =
      criteria.map fun e => (e.1, scoreCategory text e.2) := by
    show (scoreAll text).1 = _
    rw [scoreAll_eq]
  refine ⟨⟨rfl, rfl, rfl, rfl, rfl⟩, ?_, ?_, ?_, ?_⟩
  · intro c _ sub _
    cases sub.2.analyze text <;> simp
  · intro c _
    rfl
  · rw [hcat]
    simp [scoreCategory_eq, criteria]
  · rw [hcat]
    intro s hs r hr
    rw [List.mem_map] at hs
    obtain ⟨c, _, rfl⟩ := hs
    rw [scoreCategory_eq] at hr
    simp only [List.mem_map] at hr
    obtain ⟨sub, _, rfl⟩ := hr
    exact ⟨rfl, gradeToPoints_pos _, gradeToPoints_le _⟩

/-- C14, as the code has it. The five category weights sum to exactly 1, and within every
category the sub-criterion weights sum to exactly the weight of that category (0.30,
0.10, 0.20, 0.15, 0.25), not to 1. -/
theorem criteria_weight_sums :
    (criteria.map fun c => c.2.weight).sum = 1 ∧
    (criteria.map fun c => (c.2.subCriteria.map fun s => s.2.weight).sum) =
      criteria.map (fun c => c.2.weight) ∧
    criteria.map (fun c => c.2.weight) = [0.30, 0.10, 0.20, 0.15, 0.25] := by
  refine ⟨?_, ?_, ?_⟩ <;> simp [criteria] <;> norm_num

/-- C14, as stated, fails: the sub-criterion weights of `informationImpact`, the first
category, are 0.20 and 0.10; they sum to 0.30, not to 1. -/
theorem criteria_subweights_not_normalised :
    (criteria.head?.map fun c => (c.1, c.2.subCriteria.map fun s => s.2.weight)) =
      some ("informationImpact", [0.20, 0.10]) ∧
    ¬ (∀ c ∈ criteria, (c.2.subCriteria.map fun s => s.2.weight).sum = 1) := by
  constructor
  · simp [criteria]
  · intro h
    have := h _ (List.mem_cons_self _ _)
    simp at this
    norm_num at this

/-! ### Threshold cascades -/

/-- C15. With `s = 3 * directLife + 2 * systemic + 1.5 * indirect + local` the composite
score of a text, the impact grade is A iff `s > 10`, B iff `7 < s <= 10`, C iff
`5 < s <= 7`, D iff `3 < s <= 5`, E iff `s <= 3`; so a score equal to a threshold gets
the lower grade, and a text with a score at least that of another has a grade at least
as good. -/
theorem getImpactLevel_cascade (text other : Text) :
    impactScore text = 3 * (matchLength directLife text : ℚ) + 2 * matchLength systemic text
      + 1.5 * matchLength indirect text + matchLength localArea text ∧
    (getImpactLevel text = Grade.A ↔ 10 < impactScore text) ∧
    (getImpactLevel text = Grade.B ↔ 7 < impactScore text ∧ impactScore text ≤ 10) ∧
    (getImpactLevel text = Grade.C ↔ 5 < impactScore text ∧ impactScore text ≤ 7) ∧
    (getImpactLevel text = Grade.D ↔ 3 < impactScore text ∧ impactScore text ≤ 5) ∧
    (getImpactLevel text = Grade.E ↔ impactScore text ≤ 3) ∧
    (impactScore text ≤ impactScore other → getImpactLevel text ≤ getImpactLevel other) := by
  refine ⟨by unfold impactScore; ring, ?_, ?_, ?_, ?_, ?_, getImpactLevel_mono⟩
  all_goals
    unfold getImpactLevel
    simp only
    split_ifs <;> constructor <;> intro h <;>
      first
        | rfl
        | exact absurd h (by decide)
        | (constructor <;> linarith)
        | linarith

/-! ### Sentence records -/

/-- C16. For every text and every record of `getSentenceComplexity`,
`complexity = length * (1 + punctuation / 5 + parenthetical / 2)`; so
`complexity >= length >= 0`, and `complexity = length` exactly when the sentence has no
word or has neither clause punctuation nor a parenthetical. -/
theorem getSentenceComplexity_complexity (text : Text) (r : SentenceRecord)
    (hr : r ∈ getSentenceComplexity text) :
    r.complexity = (r.length : ℚ) * (1 + (r.punctuation : ℚ) / 5 + (r.parenthetical : ℚ) / 2) ∧
    (0 : ℚ) ≤ r.length ∧ (r.length : ℚ) ≤ r.complexity ∧
    (r.complexity = r.length ↔ r.length = 0 ∨ (r.punctuation = 0 ∧ r.parenthetical = 0)) := by
  have hc : r.complexity =
      (r.length : ℚ) * (1 + (r.punctuation : ℚ) / 5 + (r.parenthetical : ℚ) / 2) := by
    unfold getSentenceComplexity at hr
    rw [List.mem_map] at hr
    obtain ⟨sentence, _, rfl⟩ := hr
    rfl
  have hl : (0 : ℚ) ≤ r.length := Nat.cast_nonneg _
  have hp : (0 : ℚ) ≤ r.punctuation := Nat.cast_nonneg _
  have hq : (0 : ℚ) ≤ r.parenthetical := Nat.cast_nonneg _
  have hprod : (0 : ℚ) ≤ (r.length : ℚ) * ((r.punctuation : ℚ) / 5 + (r.parenthetical : ℚ) / 2) :=
    mul_nonneg hl (by positivity)
  refine ⟨hc, hl, by rw [hc]; linarith, ?_⟩
  rw [hc]
  constructor
  · intro h
    have h0 : (r.length : ℚ) * ((r.punctuation : ℚ) / 5 + (r.parenthetical : ℚ) / 2) = 0 := by
      linarith
    rcases mul_eq_zero.mp h0 with h1 | h1
    · left
      exact_mod_cast h1
    · right
      have h2 : (r.punctuation : ℚ) = 0 := by linarith
      have h3 : (r.parenthetical : ℚ) = 0 := by linarith
      exact ⟨by exact_mod_cast h2, by exact_mod_cast h3⟩
  · rintro (h | ⟨h1, h2⟩)
    · simp [h]
    · simp [h1, h2]

/-- A sentence of four words with one comma and one parenthetical has complexity
`4 * (1 + 1/5 + 1/2) = 6.8`. -/
theorem getSentenceComplexity_complexity_witness :
    getSentenceComplexity "One, two (three) four!".toList =
      [{ length := 4, punctuation := 1, parenthetical := 1, complexity := 34 / 5 }] ∧
    (34 / 5 : ℚ) = ((4 : ℕ) : ℚ) * (1 + ((1 : ℕ) : ℚ) / 5 + ((1 : ℕ) : ℚ) / 2) := by
  have hs : getSentenceComplexity "One, two (three) four!".toList =
      [{ length := 4, punctuation := 1, parenthetical := 1, complexity := 34 / 5 }] := by
    have h0 : matchAll sentenceAt "One, two (three) four!".toList =
        ["One, two (three) four!".toList] := by decide
    have h1 : (matchAll wordAt "One, two (three) four!".toList).length = 4 := by decide
    have h2 : (matchAll (charAt isClausePunct) "One, two (three) four!".toList).length = 1 := by
      decide
    have h3 : (matchAll bracketSpanAt "One, two (three) four!".toList).length = 1 := by decide
    unfold getSentenceComplexity
    rw [h0]
    simp only [List.map_cons, List.map_nil, h1, h2, h3]
    norm_num
  exact ⟨hs, (getSentenceComplexity_complexity "One, two (three) four!".toList _
    (by rw [hs]; exact List.mem_singleton_self _)).1⟩

/-! ### Unreachable grades -/

theorem criteria_subweights_eq_weight :
    (criteria.map fun c => (c.2.subCriteria.map fun s => s.2.weight).sum) =
      criteria.map (fun c => c.2.weight) := by
  simp [criteria]
  norm_num

/-- C18. For every text the unrounded score on the 100-point scale lies between 4.5 and
22.5: the sub-criterion weights of a category sum to the weight of the category, so even
ten grades A give `20 * 5 * (0.30^2 + 0.10^2 + 0.20^2 + 0.15^2 + 0.25^2) = 22.5`.  Hence
`finalScore <= 23` and `finalGrade` is E: no text is graded A, B, C or D overall. -/
theorem analyzeText_finalGrade_always_E (text : Text) :
    9 / 2 ≤ rawScore text ∧ rawScore text ≤ 45 / 2 ∧
    (criteria.map fun c => (c.2.subCriteria.map fun s => s.2.weight).sum) =
      criteria.map (fun c => c.2.weight) ∧
    20 * 5 * (criteria.map fun c => c.2.weight ^ 2).sum = 45 / 2 ∧
    (analyzeText text).finalScore = mathRound (rawScore text) ∧
    (analyzeText text).finalScore ≤ 23 ∧
    (analyzeText text).finalGrade = Grade.E := by
  have hb := rawScore_bounds text
  refine ⟨hb.1, hb.2, criteria_subweights_eq_weight, ?_, rfl, (finalScore_bounds text).2,
    finalGradeOf_lt_fifty (by linarith [hb.2])⟩
  simp [criteria]
  norm_num

theorem matchLength_le_two (kws : List (List Char)) (text : Text) :
    matchLength kws text ≤ 2 := by
  rw [matchLength_eq]
  split_ifs <;> omega

/-- C19. For every text `networkScore <= 8` and `resourceScore <= 6`, since every keyword
pattern contributes a count of at most 2; so `networkAnalysis` (A above 15, B above 10)
and `resourceRecognition` (A above 10, B above 7) are never graded A or B: their grades
are among C, D, E. -/
theorem networkAnalysis_resourceRecognition_bounded (text : Text) :
    (getSocialReasoning text).networkScore ≤ 8 ∧
    (getMaterialAnalysis text).resourceScore ≤ 6 ∧
    networkAnalysis text ∈ [Grade.C, Grade.D, Grade.E] ∧
    resourceRecognition text ∈ [Grade.C, Grade.D, Grade.E] := by
  have h1 := matchLength_le_two multipleViews text
  have h2 := matchLength_le_two groupPerspectives text
  have h3 := matchLength_le_two powerRelations text
  have h4 := matchLength_le_two economic text
  have h5 := matchLength_le_two material text
  have hn : (getSocialReasoning text).networkScore ≤ 8 := by
    show matchLength multipleViews text * 2 + matchLength groupPerspectives text
      + matchLength powerRelations text ≤ 8
    omega
  have hr : (getMaterialAnalysis text).resourceScore ≤ 6 := by
    show matchLength economic text * 2 + matchLength material text ≤ 6
    omega
  refine ⟨hn, hr, ?_, ?_⟩
  · unfold networkAnalysis
    simp only
    split_ifs <;> first | omega | simp
  · unfold resourceRecognition
    simp only
    split_ifs <;> first | omega | simp

/-- C20. For every text `legitimacyScore`, the number of sentences of complexity above
20, is at most `argumentScore`, the number of sentences of complexity above 15; the two
sub-criteria use the same cascade (above 5, 3, 2, 1), so the grade of
`conclusionLegitimacy` is never better than the grade of `argumentStructure`. -/
theorem conclusionLegitimacy_le_argumentStructure (text : Text) :
    (getSymbolicSynthesis text).legitimacyScore ≤ (getDialecticalQuality text).argumentScore ∧
    conclusionLegitimacy text ≤ argumentStructure text := by
  have h : (getSymbolicSynthesis text).legitimacyScore ≤
      (getDialecticalQuality text).argumentScore := by
    show ((getSentenceComplexity text).filter fun s => decide (20 < s.complexity)).length ≤
      ((getSentenceComplexity text).filter fun s => decide (15 < s.complexity)).length
    apply List.Sublist.length_le
    apply List.monotone_filter_right
    intro s hs
    simp only [decide_eq_true_eq] at hs ⊢
    linarith
  refine ⟨h, ?_⟩
  unfold conclusionLegitimacy argumentStructure
  simp only
  split_ifs <;> first | decide | omega

/-! ### Bracketed spans -/

/-- The shape of a match of the span pattern at an index. -/
theorem bracketSpanAt_some {s : Text} {n : Nat} (h : bracketSpanAt s = some n) :
    ∃ o interior c rest, s = o :: (interior ++ c :: rest) ∧ isOpen o = true ∧
      interior ≠ [] ∧ (∀ x ∈ interior, isClose x = false) ∧ isClose c = true ∧
      n = interior.length + 2 := by
  cases s with
  | nil => simp [bracketSpanAt] at h
  | cons o r =>
    by_cases ho : isOpen o = true
    · rw [bracketSpanAt, if_pos ho] at h
      cases hrun : runOf (fun c => !isClose c) r with
      | none => simp [hrun] at h
      | some k =>
        obtain ⟨hk, hpos⟩ := runOf_some hrun
        rw [hrun] at h
        simp only at h
        rw [hk, drop_length_takeWhile] at h
        cases hd : r.dropWhile (fun c => !isClose c) with
        | nil => simp [hd] at h
        | cons c rest =>
          rw [hd] at h
          simp only at h
          by_cases hc : isClose c = true
          · rw [if_pos hc] at h
            cases h
            refine ⟨o, r.takeWhile (fun c => !isClose c), c, rest, ?_, ho, ?_, ?_, hc, ?_⟩
            · rw [← hd, List.takeWhile_append_dropWhile]
            · intro hnil
              rw [hnil] at hk
              simp at hk
              omega
            · intro x hx
              have := List.mem_takeWhile_imp hx
              simpa using this
            · rfl
          · rw [if_neg hc] at h
            cases h
    · rw [bracketSpanAt, if_neg ho] at h
      cases h

/-- C17, as the code has it. Every span counted as a parenthetical of a sentence, or as a
`reference` of a text, starts with one of `( [ {`, ends with one of `) ] }` and has a
non-empty interior without a closing character; the kind of the closing character is
free, so `"(abc]"` is counted. -/
theorem bracketSpan_shape (t span : Text) (h : span ∈ matchAll bracketSpanAt t) :
    ∃ o interior c, span = o :: (interior ++ [c]) ∧ isOpen o = true ∧ interior ≠ [] ∧
      (∀ x ∈ interior, isClose x = false) ∧ isClose c = true := by
  obtain ⟨s, n, _, hm, hx⟩ := mem_matchAllAux h
  obtain ⟨o, interior, c, rest, hs, ho, hne, hint, hc, hn⟩ := bracketSpanAt_some hm
  refine ⟨o, interior, c, ?_, ho, hne, hint, hc⟩
  rw [hx, hs, hn]
  simp [List.take_append_eq_append_take]

theorem bracketSpan_shape_witness :
    "(abc]".toList ∈ matchAll bracketSpanAt "see (abc] there".toList ∧
    ∃ o interior c, "(abc]".toList = o :: (interior ++ [c]) ∧ isOpen o = true ∧
      interior ≠ [] ∧ (∀ x ∈ interior, isClose x = false) ∧ isClose c = true :=
  ⟨by decide, bracketSpan_shape "see (abc] there".toList "(abc]".toList (by decide)⟩

/-- C17, as stated, fails: the span `"(abc]"`, opened by a parenthesis and closed by a
square bracket, is counted as a parenthetical of its sentence and as a reference. -/
theorem bracketSpan_mixed_counted :
    matchAll bracketSpanAt "(abc]".toList = ["(abc]".toList] ∧
    (getSentenceComplexity "see (abc] there!".toList).map (fun r => r.parenthetical) = [1] ∧
    (getCitationLevel "(abc]".toList).references = 1 := by
  decide

/-! ### Citations -/

theorem academicAt_smithCitation (post : Text) :
    academicAt (smithCitation ++ post) = some 13 := by
  rfl

theorem matchAllAux_smithCitation (post : Text) :
    matchAllAux academicAt 0 (smithCitation ++ post) =
      smithCitation :: matchAllAux academicAt 0 post := by
  show matchAllAux academicAt 0 ('(' :: ("Smith, 2020)".toList ++ post)) = _
  rw [matchAllAux, show academicAt ('(' :: ("Smith, 2020)".toList ++ post)) = some (12 + 1)
    from academicAt_smithCitation post]
  rfl

/-- A scan that finds no match at any index returns nothing. -/
theorem matchAllAux_eq_nil {m : Text → Option Nat} {t : Text}
    (h : ∀ s, s <:+ t → m s = none) : matchAllAux m 0 t = [] := by
  induction t with
  | nil =>
    rw [matchAllAux, h [] (List.suffix_refl _)]
  | cons c cs ih =>
    rw [matchAllAux, h (c :: cs) (List.suffix_refl _)]
    exact ih fun s hs => h s (hs.trans (List.suffix_cons c cs))

/-- The scan reaches the literal: no match that starts before it is needed to count it. -/
theorem matchAllAux_smithCitation_ne_nil (pre post : Text) :
    matchAllAux academicAt 0 (pre ++ (smithCitation ++ post)) ≠ [] := by
  induction pre with
  | nil =>
    rw [List.nil_append, matchAllAux_smithCitation]
    exact List.cons_ne_nil _ _
  | cons c cs ih =>
    rw [List.cons_append, matchAllAux]
    cases hm : academicAt (c :: (cs ++ (smithCitation ++ post))) with
    | none => exact ih
    | some n =>
      cases n with
      | zero => exact List.cons_ne_nil _ _
      | succ k => exact List.cons_ne_nil _ _

theorem matchAllAux_smithCitation_only (pre post : Text)
    (hpre : ∀ s, s ≠ [] → s <:+ pre → academicAt (s ++ (smithCitation ++ post)) = none)
    (hpost : ∀ s, s <:+ post → academicAt s = none) :
    matchAllAux academicAt 0 (pre ++ (smithCitation ++ post)) = [smithCitation] := by
  induction pre with
  | nil =>
    rw [List.nil_append, matchAllAux_smithCitation, matchAllAux_eq_nil hpost]
  | cons c cs ih =>
    rw [List.cons_append, matchAllAux,
      show academicAt (c :: (cs ++ (smithCitation ++ post))) = none from
        hpre (c :: cs) (List.cons_ne_nil _ _) (List.suffix_refl _)]
    exact ih fun s hne hs => hpre s hne (hs.trans (List.suffix_cons c cs))

/-- C11. Every text that contains the literal `"(Smith, 2020)"` has `academic >= 1`; and
when the author-year pattern matches at no other index of the text, before or after the
literal, `academic` is exactly 1, as for `"See (Smith, 2020) for details."` and for the
literal alone. -/
theorem getCitationLevel_smithCitation (pre post : Text) :
    1 ≤ (getCitationLevel (pre ++ smithCitation ++ post)).academic ∧
    ((∀ s, s ≠ [] → s <:+ pre → academicAt (s ++ smithCitation ++ post) = none) →
      (∀ s, s <:+ post → academicAt s = none) →
      (getCitationLevel (pre ++ smithCitation ++ post)).academic = 1) ∧
    (getCitationLevel "See (Smith, 2020) for details.".toList).academic = 1 ∧
    (getCitationLevel smithCitation).academic = 1 := by
  refine ⟨?_, ?_, by decide, by decide⟩
  · show 1 ≤ (matchAll academicAt (pre ++ smithCitation ++ post)).length
    rw [List.append_assoc]
    exact List.length_pos.mpr (matchAllAux_smithCitation_ne_nil pre post)
  · intro hpre hpost
    show (matchAll academicAt (pre ++ smithCitation ++ post)).length = 1
    rw [List.append_assoc]
    have := matchAllAux_smithCitation_only pre post
      (fun s hne hs => by rw [← List.append_assoc]; exact hpre s hne hs) hpost
    unfold matchAll
    rw [this]
    rfl

/-! ### Academic citations and references -/


theorem isClose_cases {x : Char} (h : isClose x = true) : x = ')' ∨ x = ']' ∨ x = '}' := by
  have h' : x.toNat = 0x29 ∨ x.toNat = 0x5D ∨ x.toNat = 0x7D := by
    simpa [isClose] using h
  have hx : Char.ofNat x.toNat = x := Char.ofNat_toNat x
  rcases h' with h' | h' | h' <;> rw [h'] at hx
  · exact Or.inl hx.symm
  · exact Or.inr (Or.inl hx.symm)
  · exact Or.inr (Or.inr hx.symm)

theorem isOpen_of_isClose {x : Char} (h : isClose x = true) : isOpen x = false := by
  rcases isClose_cases h with rfl | rfl | rfl <;> decide

theorem isClose_of_letter_or_space {x : Char} (h : (isLetter x || isSpace x) = true) :
    isClose x = false := by
  cases hc : isClose x with
  | false => rfl
  | true =>
    rcases isClose_cases hc with rfl | rfl | rfl <;> revert h <;> decide

theorem isClose_of_isSpace {x : Char} (h : isSpace x = true) : isClose x = false :=
  isClose_of_letter_or_space (by simp [h])

theorem isClose_of_isDigit {x : Char} (h : isDigit x = true) : isClose x = false := by
  cases hc : isClose x with
  | false => rfl
  | true =>
    rcases isClose_cases hc with rfl | rfl | rfl <;> revert h <;> decide

theorem comma_facts (r1 : Text) (C : Nat)
    (hC : (match r1 with
      | c :: _ => if c = ',' then 1 else 0
      | [] => 0) = C) :
    (r1.take C).length = C ∧ ∀ x ∈ r1.take C, isClose x = false := by
  cases r1 with
  | nil =>
    simp only at hC
    subst hC
    simp
  | cons c tl =>
    simp only at hC
    by_cases hc : c = ','
    · rw [if_pos hc] at hC
      subst hC
      subst hc
      simp
      decide
    · rw [if_neg hc] at hC
      subst hC
      simp

theorem academicAt_some {s : Text} {n : Nat} (h : academicAt s = some n) :
    ∃ o interior c rest, s = o :: (interior ++ c :: rest) ∧ isOpen o = true ∧
      interior ≠ [] ∧ (∀ x ∈ interior, isClose x = false) ∧ isClose c = true ∧
      n = interior.length + 2 := by
  cases s with
  | nil => simp [academicAt] at h
  | cons o r =>
    by_cases ho : isOpen o = true
    · rw [academicAt, if_pos ho] at h
      cases hrun : runOf (fun c => isLetter c || isSpace c) r with
      | none => simp [hrun] at h
      | some k =>
        obtain ⟨hk, hpos⟩ := runOf_some hrun
        rw [hrun] at h
        simp only at h
        split at h
        · next d1 d2 d3 d4 c rest hd =>
          generalize hC : (match List.drop k r with
            | c :: _ => if c = ',' then 1 else 0
            | [] => 0) = C at hd h
          obtain ⟨hC1, hC2⟩ := comma_facts _ _ hC
          by_cases hcond : (isDigit d1 && isDigit d2 && isDigit d3 && isDigit d4 &&
              isClose c) = true
          · rw [if_pos hcond] at h
            cases h
            simp only [Bool.and_eq_true] at hcond
            obtain ⟨⟨⟨⟨h1, h2⟩, h3⟩, h4⟩, hc⟩ := hcond
            have e1 : r = r.takeWhile (fun c => isLetter c || isSpace c) ++ r.drop k := by
              conv_lhs => rw [← List.take_append_drop k r]
              rw [hk, take_length_takeWhile]
            have e3 : (r.drop k).drop C =
                ((r.drop k).drop C).takeWhile isSpace ++ d1 :: d2 :: d3 :: d4 :: c :: rest := by
              rw [← hd, drop_length_takeWhile, List.takeWhile_append_dropWhile]
            have e : r = (r.takeWhile (fun c => isLetter c || isSpace c) ++
                ((r.drop k).take C ++ (((r.drop k).drop C).takeWhile isSpace ++
                  [d1, d2, d3, d4]))) ++ c :: rest :=
              calc r = r.takeWhile (fun c => isLetter c || isSpace c) ++ r.drop k := e1
                _ = r.takeWhile (fun c => isLetter c || isSpace c) ++
                    ((r.drop k).take C ++ (r.drop k).drop C) := by
                  rw [List.take_append_drop]
                _ = r.takeWhile (fun c => isLetter c || isSpace c) ++
                    ((r.drop k).take C ++ (((r.drop k).drop C).takeWhile isSpace ++
                      d1 :: d2 :: d3 :: d4 :: c :: rest)) :=
                  congrArg (fun z => r.takeWhile (fun c => isLetter c || isSpace c) ++
                    ((r.drop k).take C ++ z)) e3
                _ = _ := by simp
            refine ⟨o, _, c, rest, congrArg (List.cons o) e, ho, ?_, ?_, hc, ?_⟩
            · intro hnil
              have hlen := congrArg List.length hnil
              simp only [List.length_append, List.length_nil] at hlen
              omega
            · intro x hx
              simp only [List.mem_append] at hx
              rcases hx with hx | hx | hx | hx
              · have hp := List.mem_takeWhile_imp hx
                exact isClose_of_letter_or_space hp
              · exact hC2 x hx
              · have hp := List.mem_takeWhile_imp hx
                exact isClose_of_isSpace hp
              · simp only [List.mem_cons, List.mem_singleton, List.not_mem_nil,
                  or_false] at hx
                rcases hx with rfl | rfl | rfl | rfl
                · exact isClose_of_isDigit h1
                · exact isClose_of_isDigit h2
                · exact isClose_of_isDigit h3
                · exact isClose_of_isDigit h4
            · simp only [List.length_append, hC1, ← hk, List.length_cons, List.length_nil]
              omega
          · rw [if_neg hcond] at h
            cases h
        · cases h
    · rw [academicAt, if_neg ho] at h
      cases h

theorem takeWhile_not_isClose_append {u : Text} {c : Char} (rest : Text)
    (hu : ∀ x ∈ u, isClose x = false) (hc : isClose c = true) :
    (u ++ c :: rest).takeWhile (fun x => !isClose x) = u := by
  induction u with
  | nil => simp [List.takeWhile_cons, hc]
  | cons y ys ih =>
    have hy : isClose y = false := hu y (List.mem_cons_self _ _)
    simp only [List.cons_append, List.takeWhile_cons, hy, Bool.not_false, if_true]
    rw [ih fun x hx => hu x (List.mem_cons_of_mem _ hx)]

/-- A text splits in one way only at its first closing character. -/
theorem split_at_first_close {u u' : Text} {c c' : Char} {rest rest' : Text}
    (h : u ++ c :: rest = u' ++ c' :: rest')
    (hu : ∀ x ∈ u, isClose x = false) (hc : isClose c = true)
    (hu' : ∀ x ∈ u', isClose x = false) (hc' : isClose c' = true) :
    u = u' ∧ rest = rest' := by
  have huu : u = u' := by
    rw [← takeWhile_not_isClose_append rest hu hc, h,
      takeWhile_not_isClose_append rest' hu' hc']
  subst huu
  have := List.append_cancel_left h
  exact ⟨rfl, (List.cons.inj this).2⟩

/-- An opening character, a non-empty interior without closing character and a closing
character make a match of the span pattern. -/
theorem bracketSpanAt_of_shape {o c : Char} {interior : Text} (rest : Text)
    (ho : isOpen o = true) (hne : interior ≠ [])
    (hint : ∀ x ∈ interior, isClose x = false) (hc : isClose c = true) :
    bracketSpanAt (o :: (interior ++ c :: rest)) = some (interior.length + 2) := by
  have htw := takeWhile_not_isClose_append rest hint hc
  have hrun : runOf (fun x => !isClose x) (interior ++ c :: rest) = some interior.length := by
    unfold runOf
    rw [htw]
    cases interior with
    | nil => exact absurd rfl hne
    | cons y ys => rfl
  rw [bracketSpanAt, if_pos ho, hrun]
  simp [hc]

theorem academicAt_of_not_isOpen {o : Char} (r : Text) (ho : isOpen o = false) :
    academicAt (o :: r) = none := by
  rw [academicAt, if_neg (by simp [ho])]

theorem matchRests_succ_cons (m : Text → Option Nat) (k : Nat) (x : Char) (xs : Text) :
    matchRests m (k + 1) (x :: xs) = matchRests m k xs := by
  rw [matchRests]

theorem matchRests_cons_none {m : Text → Option Nat} {x : Char} {xs : Text}
    (h : m (x :: xs) = none) : matchRests m 0 (x :: xs) = matchRests m 0 xs := by
  rw [matchRests, h]

theorem matchRests_cons_some {m : Text → Option Nat} {x : Char} {xs : Text} {k : Nat}
    (h : m (x :: xs) = some (k + 1)) :
    matchRests m 0 (x :: xs) = xs.drop k :: matchRests m k xs := by
  rw [matchRests, h]

theorem matchRests_cons_zero {m : Text → Option Nat} {x : Char} {xs : Text}
    (h : m (x :: xs) = some 0) :
    matchRests m 0 (x :: xs) = (x :: xs) :: matchRests m 0 xs := by
  rw [matchRests, h]

/-- The two scans side by side.  From any common state, every end of an academic match is
the end of a reference match; and while a reference match is under way up to the first
closing character `c`, the academic scan can end at most one match there. -/
theorem matchRests_academic_sublist_aux (t : Text) :
    (∀ k, (matchRests academicAt k t).Sublist (matchRests bracketSpanAt k t)) ∧
    (∀ u c rest, t = u ++ c :: rest → (∀ x ∈ u, isClose x = false) → isClose c = true →
      (matchRests academicAt 0 t).Sublist
        (rest :: matchRests bracketSpanAt (u.length + 1) t)) := by
  induction t with
  | nil =>
    constructor
    · intro k
      cases k <;> simp [matchRests, academicAt, bracketSpanAt]
    · intro u c rest ht
      simp at ht
  | cons x xs ih =>
    obtain ⟨ihC, ihB⟩ := ih
    constructor
    · intro k
      cases k with
      | succ k =>
        rw [matchRests_succ_cons, matchRests_succ_cons]
        exact ihC k
      | zero =>
        cases hA : academicAt (x :: xs) with
        | none =>
          rw [matchRests_cons_none hA]
          cases hB : bracketSpanAt (x :: xs) with
          | none =>
            rw [matchRests_cons_none hB]
            exact ihC 0
          | some n =>
            cases n with
            | zero =>
              rw [matchRests_cons_zero hB]
              exact List.Sublist.cons _ (ihC 0)
            | succ m =>
              rw [matchRests_cons_some hB]
              obtain ⟨o, interior, c, rest, hs, _, _, hint, hc, hn⟩ := bracketSpanAt_some hB
              have hxs : xs = interior ++ c :: rest := (List.cons.inj hs).2
              have hm : m = interior.length + 1 := by omega
              have hdrop : xs.drop m = rest := by
                rw [hxs, hm, List.drop_append_eq_append_drop]
                simp
              rw [hdrop, hm]
              exact ihB interior c rest hxs hint hc
        | some n =>
          obtain ⟨o, interior, c, rest, hs, ho, hne, hint, hc, hn⟩ := academicAt_some hA
          have hB : bracketSpanAt (x :: xs) = some (interior.length + 1 + 1) := by
            rw [hs]
            exact bracketSpanAt_of_shape rest ho hne hint hc
          have hA' : academicAt (x :: xs) = some (interior.length + 1 + 1) := by
            rw [hA, hn]
          rw [matchRests_cons_some hA', matchRests_cons_some hB]
          exact (ihC _).cons₂ _
    · intro u c rest ht hu hc
      cases u with
      | nil =>
        have hx : x = c := (List.cons.inj ht).1
        have hxs : xs = rest := (List.cons.inj ht).2
        subst hx
        rw [matchRests_cons_none (academicAt_of_not_isOpen xs (isOpen_of_isClose hc)),
          List.length_nil, matchRests_succ_cons, ← hxs]
        exact List.Sublist.cons _ (ihC 0)
      | cons y u' =>
        have hxs : xs = u' ++ c :: rest := (List.cons.inj ht).2
        have hu' : ∀ z ∈ u', isClose z = false := fun z hz => hu z (List.mem_cons_of_mem _ hz)
        rw [List.length_cons, matchRests_succ_cons]
        cases hA : academicAt (x :: xs) with
        | none =>
          rw [matchRests_cons_none hA]
          exact ihB u' c rest hxs hu' hc
        | some n =>
          obtain ⟨o, interior, c', rest', hs, _, _, hint, hc', hn⟩ := academicAt_some hA
          have hxs' : xs = interior ++ c' :: rest' := (List.cons.inj hs).2
          obtain ⟨hi, hr⟩ := split_at_first_close (hxs'.symm.trans hxs) hint hc' hu' hc
          have hA' : academicAt (x :: xs) = some (u'.length + 1 + 1) := by
            rw [hA, hn, hi]
          have hdrop : xs.drop (u'.length + 1) = rest := by
            rw [hxs, List.drop_append_eq_append_drop]
            simp
          rw [matchRests_cons_some hA', hdrop]
          exact (ihC _).cons₂ _

/-- Every match of a scan, followed by the text recorded for it by `matchRests`, is the
end of the scanned text: the recorded text starts where the match ends. -/
theorem matchRests_spec (m : Text → Option Nat) (k : Nat) (t : Text) :
    List.Forall₂ (fun span rest => span ++ rest <:+ t) (matchAllAux m k t)
      (matchRests m k t) := by
  induction t generalizing k with
  | nil =>
    rw [matchAllAux, matchRests]
    cases m [] with
    | none => exact List.Forall₂.nil
    | some n => exact List.Forall₂.cons (List.suffix_refl _) List.Forall₂.nil
  | cons x xs ih =>
    have lift : ∀ j, List.Forall₂ (fun span rest => span ++ rest <:+ x :: xs)
        (matchAllAux m j xs) (matchRests m j xs) := fun j =>
      (ih j).imp fun _ _ h => h.trans (List.suffix_cons x xs)
    cases k with
    | succ k =>
      rw [matchAllAux, matchRests]
      exact lift k
    | zero =>
      rw [matchAllAux, matchRests]
      cases m (x :: xs) with
      | none => exact lift 0
      | some n =>
        cases n with
        | zero => exact List.Forall₂.cons (List.suffix_refl _) (lift 0)
        | succ j =>
          refine List.Forall₂.cons ?_ (lift j)
          simp only [List.take_succ_cons, List.cons_append, List.take_append_drop]
          exact List.suffix_refl _

/-- C21. For every text, every span counted as an academic citation is an opening
character, an interior without closing character and a closing character, and the scan
for references has a match that ends at the same place: the texts that follow the
academic matches form a sublist of the texts that follow the reference matches.  Hence
`academic <= references`, and `authorityScore` is at least `5 * academic`. -/
theorem getCitationLevel_academic_le_references (text : Text) :
    List.Forall₂ (fun span rest => span ++ rest <:+ text) (matchAll academicAt text)
      (matchRests academicAt 0 text) ∧
    List.Forall₂ (fun span rest => span ++ rest <:+ text) (matchAll bracketSpanAt text)
      (matchRests bracketSpanAt 0 text) ∧
    (matchRests academicAt 0 text).Sublist (matchRests bracketSpanAt 0 text) ∧
    (∀ span ∈ matchAll academicAt text, ∃ o interior c, span = o :: (interior ++ [c]) ∧
      isOpen o = true ∧ (∀ x ∈ interior, isClose x = false) ∧ isClose c = true) ∧
    (getCitationLevel text).academic ≤ (getCitationLevel text).references ∧
    5 * ((getCitationLevel text).academic : ℚ) ≤ (getSymbolicSynthesis text).authorityScore := by
  have hA := matchRests_spec academicAt 0 text
  have hB := matchRests_spec bracketSpanAt 0 text
  have hsub := (matchRests_academic_sublist_aux text).1 0
  have hle : (getCitationLevel text).academic ≤ (getCitationLevel text).references := by
    show (matchAll academicAt text).length ≤ (matchAll bracketSpanAt text).length
    unfold matchAll
    rw [hA.length_eq, hB.length_eq]
    exact hsub.length_le
  refine ⟨hA, hB, hsub, ?_, hle, ?_⟩
  · intro span hspan
    obtain ⟨s, n, _, hm, hx⟩ := mem_matchAllAux hspan
    obtain ⟨o, interior, c, rest, hs, ho, _, hint, hc, hn⟩ := academicAt_some hm
    refine ⟨o, interior, c, ?_, ho, hint, hc⟩
    rw [hx, hs, hn]
    simp [List.take_append_eq_append_take]
  · show 5 * ((getCitationLevel text).academic : ℚ) ≤
      ((getCitationLevel text).academic : ℚ) * 3 + ((getCitationLevel text).references : ℚ) * 2
        + (getCitationLevel text).quotes
    have hq : (0 : ℚ) ≤ (getCitationLevel text).quotes := by
      show (0 : ℚ) ≤ ((matchAll (charAt isQuote) text).length : ℚ) / 2
      positivity
    have hle' : ((getCitationLevel text).academic : ℚ) ≤ (getCitationLevel text).references := by
      exact_mod_cast hle
    linarith

end BullshitDetector
